import Mathlib

/-!
Verification development for the Nova3201 virtual machine: a shallow
embedding of the CPU execution engine (src/cpu.rs), the bus and address
decoder (src/bus.rs), the timer and UART devices (src/devices/timer.rs,
src/devices/uart.rs), the branch encoder of the two-pass assembler
(src/assembler.rs), and the NV32 object-file writer and loader
(src/bin/nvasm.rs, src/bin/nova3201.rs).

Machine integers are modelled as `Nat` with explicit reduction modulo
2^32 where the source wraps; signed views go through `Int`. Fallible
operations return `Except`. Rust's in-place mutation is modelled by
explicit state passing: an operation on `&mut self` becomes a function
returning the updated value, and `Cpu::step`, which mutates the CPU and
the bus and returns `Result<(), E>`, becomes a function returning a
record of the result, the new CPU and the new bus (on an error exit the
CPU is whatever the early `return` left behind, exactly as in the
source).
-/

/-! ## 32-bit arithmetic helpers -/

/-- Reduction modulo 2^32, the implicit wrap of every Rust `u32` op. -/
def wrap32 (x : Nat) : Nat := x % 4294967296

/-- `u32::wrapping_add`. -/
def wadd (a b : Nat) : Nat := (a + b) % 4294967296

/-- `u32::wrapping_sub` (operands are `u32` values, i.e. below 2^32). -/
def wsub (a b : Nat) : Nat := (a + (4294967296 - b % 4294967296)) % 4294967296

/-- Reinterpretation of a `u32` bit pattern as an `i32` (`x as i32`). -/
def toInt32 (x : Nat) : Int :=
  if x % 4294967296 < 2147483648 then (x % 4294967296 : Int)
  else (x % 4294967296 : Int) - 4294967296

/-- Reinterpretation of an `i32` value as a `u32` bit pattern
(`%` on `Int` is the Euclidean `emod`, with result in `[0, 2^32)`). -/
def ofInt32 (i : Int) : Nat := (i % 4294967296).toNat

/-- Two's-complement bit pattern of an `i16` value, `d as u16`
(`%` on `Int` is the Euclidean `emod`, with result in `[0, 2^16)`). -/
def ofInt16 (d : Int) : Nat := (d % 65536).toNat

/-- `Cpu::sign_extend_16`: `(x as i16) as i32 as u32`, for `x < 2^16`. -/
def sign_extend_16 (x : Nat) : Nat :=
  if x < 32768 then x else x + 4294901760

/-- Sign extension of a byte, `(byte as i8) as i32 as u32` (LB). -/
def sign_extend_8 (x : Nat) : Nat :=
  if x % 256 < 128 then x % 256 else x % 256 + 4294967040

/-- Arithmetic right shift of a `u32` bit pattern viewed as `i32`
(`(x as i32).wrapping_shr(sh) as u32`, `sh < 32`). -/
def sar32 (x sh : Nat) : Nat := ofInt32 (Int.fdiv (toInt32 x) (2 ^ sh))

/-! ## ISA constants (src/cpu/isa.rs) -/

namespace opcode

def ADD : Nat := 0x00
def SUB : Nat := 0x01
def AND : Nat := 0x02
def OR : Nat := 0x03
def XOR : Nat := 0x04
def SLT : Nat := 0x05
def SLTU : Nat := 0x06
def SHL : Nat := 0x07
def SHR : Nat := 0x08
def SAR : Nat := 0x09
def ADDI : Nat := 0x10
def ANDI : Nat := 0x11
def ORI : Nat := 0x12
def XORI : Nat := 0x13
def SLTI : Nat := 0x14
def SLTIU : Nat := 0x15
def LUI : Nat := 0x16
def LW : Nat := 0x18
def SW : Nat := 0x19
def LB : Nat := 0x1A
def SB : Nat := 0x1B
def BEQ : Nat := 0x20
def BNE : Nat := 0x21
def BLT : Nat := 0x22
def BGE : Nat := 0x23
def J : Nat := 0x28
def JAL : Nat := 0x29
def JR : Nat := 0x2A
def JALR : Nat := 0x2B
def NOP : Nat := 0x3E
def HALT : Nat := 0x3F

end opcode

namespace cause

def ILLEGAL_OP : Nat := 0x00
def TIMER1_IRQ : Nat := 0x100
def TIMER2_IRQ : Nat := 0x101
def UART_IRQ : Nat := 0x102

end cause

/-! ## CPU state and instruction decoding (src/cpu.rs) -/

def SR_IE : Nat := 16

def LINK_REGISTER : Nat := 31

def RESET_VECTOR : Nat := 0x00000000

def EXCEPTION_VECTOR : Nat := 0x00000100

structure Cpu where
  regs : List Nat
  pc : Nat
  sr : Nat
  epc : Nat
  cause : Nat
  halted : Bool
deriving DecidableEq

/-- `Cpu::new`. -/
def Cpu.new : Cpu :=
  { regs := List.replicate 32 0
  , pc := RESET_VECTOR
  , sr := 0
  , epc := 0
  , cause := 0
  , halted := false }

/-- Register-file read `self.regs[i]` (indices are below 32 in every use). -/
def regGet (cpu : Cpu) (i : Nat) : Nat := cpu.regs.getD i 0

structure Instruction where
  opcode : Nat
  rd : Nat
  rs : Nat
  rt : Nat
  imm16 : Nat
  target : Nat
deriving DecidableEq

/-- `Instruction::decode`. -/
def Instruction.decode (raw : Nat) : Instruction :=
  { opcode := (raw >>> 26) &&& 0x3F
  , rd := (raw >>> 21) &&& 0x1F
  , rs := (raw >>> 16) &&& 0x1F
  , rt := (raw >>> 11) &&& 0x1F
  , imm16 := raw &&& 0xFFFF
  , target := raw &&& 0x03FFFFFF }

/-- `IrqLines` (src/machine.rs). -/
structure IrqLines where
  timer1 : Bool
  timer2 : Bool
  uart : Bool
deriving DecidableEq

def noIrq : IrqLines := ⟨false, false, false⟩

/-- The `Bus` trait (src/bus.rs): each operation takes the bus state and
returns a result together with the (possibly mutated) state, mirroring
`&mut self` receivers. -/
structure BusOps (σ ε : Type) where
  read8 : σ → Nat → Except ε Nat × σ
  read32 : σ → Nat → Except ε Nat × σ
  write8 : σ → Nat → Nat → Except ε Unit × σ
  write32 : σ → Nat → Nat → Except ε Unit × σ

/-- Outcome of `Cpu::step`: the `Result<(), E>` return value plus the
CPU and bus as left by the call (`none` = `Ok(())`). -/
structure StepOut (σ ε : Type) where
  res : Option ε
  cpu : Cpu
  bus : σ

/-- Execute phase of `Cpu::step` (the `match instr.opcode` block of the
source), with the trailing `next_regs[0] = 0` and the commit folded into
every arm. The numeric patterns are the `isa::opcode` constants:
0x00 ADD, 0x01 SUB, 0x02 AND, 0x03 OR, 0x04 XOR, 0x05 SLT, 0x06 SLTU,
0x07 SHL, 0x08 SHR, 0x09 SAR, 0x10 ADDI, 0x11 ANDI, 0x12 ORI, 0x13 XORI,
0x14 SLTI, 0x15 SLTIU, 0x16 LUI, 0x18 LW, 0x19 SW, 0x1A LB, 0x1B SB,
0x20 BEQ, 0x21 BNE, 0x22 BLT, 0x23 BGE, 0x28 J, 0x29 JAL, 0x2A JR,
0x2B JALR, 0x3E NOP, 0x3F HALT; anything else is the illegal-opcode
arm. -/
def Cpu.exec {σ ε : Type} (B : BusOps σ ε) (cpu : Cpu) (bus : σ)
    (instr : Instruction) : StepOut σ ε :=
  match instr.opcode with
  | 0x00 =>
    ⟨none, { cpu with
      regs := (cpu.regs.set instr.rd (wadd (regGet cpu instr.rs) (regGet cpu instr.rt))).set 0 0,
      pc := wadd cpu.pc 4 }, bus⟩
  | 0x01 =>
    ⟨none, { cpu with
      regs := (cpu.regs.set instr.rd (wsub (regGet cpu instr.rs) (regGet cpu instr.rt))).set 0 0,
      pc := wadd cpu.pc 4 }, bus⟩
  | 0x02 =>
    ⟨none, { cpu with
      regs := (cpu.regs.set instr.rd (regGet cpu instr.rs &&& regGet cpu instr.rt)).set 0 0,
      pc := wadd cpu.pc 4 }, bus⟩
  | 0x03 =>
    ⟨none, { cpu with
      regs := (cpu.regs.set instr.rd (regGet cpu instr.rs ||| regGet cpu instr.rt)).set 0 0,
      pc := wadd cpu.pc 4 }, bus⟩
  | 0x04 =>
    ⟨none, { cpu with
      regs := (cpu.regs.set instr.rd (regGet cpu instr.rs ^^^ regGet cpu instr.rt)).set 0 0,
      pc := wadd cpu.pc 4 }, bus⟩
  | 0x05 =>
    ⟨none, { cpu with
      regs := (cpu.regs.set instr.rd
        (if toInt32 (regGet cpu instr.rs) < toInt32 (regGet cpu instr.rt) then 1 else 0)).set 0 0,
      pc := wadd cpu.pc 4 }, bus⟩
  | 0x06 =>
    ⟨none, { cpu with
      regs := (cpu.regs.set instr.rd
        (if regGet cpu instr.rs < regGet cpu instr.rt then 1 else 0)).set 0 0,
      pc := wadd cpu.pc 4 }, bus⟩
  | 0x07 =>
    ⟨none, { cpu with
      regs := (cpu.regs.set instr.rd
        (wrap32 (regGet cpu instr.rs <<< (regGet cpu instr.rt &&& 0x1F)))).set 0 0,
      pc := wadd cpu.pc 4 }, bus⟩
  | 0x08 =>
    ⟨none, { cpu with
      regs := (cpu.regs.set instr.rd
        (regGet cpu instr.rs >>> (regGet cpu instr.rt &&& 0x1F))).set 0 0,
      pc := wadd cpu.pc 4 }, bus⟩
  | 0x09 =>
    ⟨none, { cpu with
      regs := (cpu.regs.set instr.rd
        (sar32 (regGet cpu instr.rs) (regGet cpu instr.rt &&& 0x1F))).set 0 0,
      pc := wadd cpu.pc 4 }, bus⟩
  | 0x10 =>
    ⟨none, { cpu with
      regs := (cpu.regs.set instr.rd
        (wadd (regGet cpu instr.rs) (sign_extend_16 instr.imm16))).set 0 0,
      pc := wadd cpu.pc 4 }, bus⟩
  | 0x11 =>
    ⟨none, { cpu with
      regs := (cpu.regs.set instr.rd (regGet cpu instr.rs &&& instr.imm16)).set 0 0,
      pc := wadd cpu.pc 4 }, bus⟩
  | 0x12 =>
    ⟨none, { cpu with
      regs := (cpu.regs.set instr.rd (regGet cpu instr.rs ||| instr.imm16)).set 0 0,
      pc := wadd cpu.pc 4 }, bus⟩
  | 0x13 =>
    ⟨none, { cpu with
      regs := (cpu.regs.set instr.rd (regGet cpu instr.rs ^^^ instr.imm16)).set 0 0,
      pc := wadd cpu.pc 4 }, bus⟩
  | 0x14 =>
    ⟨none, { cpu with
      regs := (cpu.regs.set instr.rd
        (if toInt32 (regGet cpu instr.rs) < toInt32 (sign_extend_16 instr.imm16) then 1 else 0)).set 0 0,
      pc := wadd cpu.pc 4 }, bus⟩
  | 0x15 =>
    ⟨none, { cpu with
      regs := (cpu.regs.set instr.rd
        (if regGet cpu instr.rs < instr.imm16 then 1 else 0)).set 0 0,
      pc := wadd cpu.pc 4 }, bus⟩
  | 0x16 =>
    ⟨none, { cpu with
      regs := (cpu.regs.set instr.rd (wrap32 (instr.imm16 <<< 16))).set 0 0,
      pc := wadd cpu.pc 4 }, bus⟩
  | 0x18 =>
    match B.read32 bus (wadd (regGet cpu instr.rs) (sign_extend_16 instr.imm16)) with
    | (Except.error e, bus2) => ⟨some e, cpu, bus2⟩
    | (Except.ok v, bus2) =>
      ⟨none, { cpu with
        regs := (cpu.regs.set instr.rd v).set 0 0,
        pc := wadd cpu.pc 4 }, bus2⟩
  | 0x19 =>
    match B.write32 bus (wadd (regGet cpu instr.rs) (sign_extend_16 instr.imm16))
        (regGet cpu instr.rd) with
    | (Except.error e, bus2) => ⟨some e, cpu, bus2⟩
    | (Except.ok _, bus2) =>
      ⟨none, { cpu with regs := cpu.regs.set 0 0, pc := wadd cpu.pc 4 }, bus2⟩
  | 0x1A =>
    match B.read8 bus (wadd (regGet cpu instr.rs) (sign_extend_16 instr.imm16)) with
    | (Except.error e, bus2) => ⟨some e, cpu, bus2⟩
    | (Except.ok byte, bus2) =>
      ⟨none, { cpu with
        regs := (cpu.regs.set instr.rd (sign_extend_8 byte)).set 0 0,
        pc := wadd cpu.pc 4 }, bus2⟩
  | 0x1B =>
    match B.write8 bus (wadd (regGet cpu instr.rs) (sign_extend_16 instr.imm16))
        (regGet cpu instr.rd &&& 0xFF) with
    | (Except.error e, bus2) => ⟨some e, cpu, bus2⟩
    | (Except.ok _, bus2) =>
      ⟨none, { cpu with regs := cpu.regs.set 0 0, pc := wadd cpu.pc 4 }, bus2⟩
  | 0x20 =>
    ⟨none, { cpu with
      regs := cpu.regs.set 0 0,
      pc := if regGet cpu instr.rd = regGet cpu instr.rs
        then wadd (wadd cpu.pc 4) (wrap32 (sign_extend_16 instr.imm16 <<< 2))
        else wadd cpu.pc 4 }, bus⟩
  | 0x21 =>
    ⟨none, { cpu with
      regs := cpu.regs.set 0 0,
      pc := if regGet cpu instr.rd ≠ regGet cpu instr.rs
        then wadd (wadd cpu.pc 4) (wrap32 (sign_extend_16 instr.imm16 <<< 2))
        else wadd cpu.pc 4 }, bus⟩
  | 0x22 =>
    ⟨none, { cpu with
      regs := cpu.regs.set 0 0,
      pc := if toInt32 (regGet cpu instr.rd) < toInt32 (regGet cpu instr.rs)
        then wadd (wadd cpu.pc 4) (wrap32 (sign_extend_16 instr.imm16 <<< 2))
        else wadd cpu.pc 4 }, bus⟩
  | 0x23 =>
    ⟨none, { cpu with
      regs := cpu.regs.set 0 0,
      pc := if toInt32 (regGet cpu instr.rs) ≤ toInt32 (regGet cpu instr.rd)
        then wadd (wadd cpu.pc 4) (wrap32 (sign_extend_16 instr.imm16 <<< 2))
        else wadd cpu.pc 4 }, bus⟩
  | 0x28 =>
    ⟨none, { cpu with
      regs := cpu.regs.set 0 0,
      pc := (cpu.pc &&& 0xF0000000) ||| wrap32 (instr.target <<< 2) }, bus⟩
  | 0x29 =>
    ⟨none, { cpu with
      regs := (cpu.regs.set LINK_REGISTER (wadd cpu.pc 4)).set 0 0,
      pc := (cpu.pc &&& 0xF0000000) ||| wrap32 (instr.target <<< 2) }, bus⟩
  | 0x2A =>
    ⟨none, { cpu with regs := cpu.regs.set 0 0, pc := regGet cpu instr.rs }, bus⟩
  | 0x2B =>
    ⟨none, { cpu with
      regs := (cpu.regs.set instr.rd (wadd cpu.pc 4)).set 0 0,
      pc := regGet cpu instr.rs }, bus⟩
  | 0x3E =>
    ⟨none, { cpu with regs := cpu.regs.set 0 0, pc := wadd cpu.pc 4 }, bus⟩
  | 0x3F =>
    ⟨none, { cpu with regs := cpu.regs.set 0 0, halted := true }, bus⟩
  | _ =>
    ⟨none, { cpu with
      regs := cpu.regs.set 0 0,
      pc := EXCEPTION_VECTOR,
      epc := cpu.pc,
      cause := cause.ILLEGAL_OP }, bus⟩

/-- `Cpu::step`: halt short-circuit, fetch, decode, interrupt check in
priority order Timer1, Timer2, UART (taken regardless of `SR.IE`,
clearing `IE` on entry), then execute. -/
def Cpu.step {σ ε : Type} (B : BusOps σ ε) (cpu : Cpu) (bus : σ)
    (irq : IrqLines) : StepOut σ ε :=
  if cpu.halted then ⟨none, cpu, bus⟩
  else
    match B.read32 bus cpu.pc with
    | (Except.error e, bus1) => ⟨some e, cpu, bus1⟩
    | (Except.ok raw, bus1) =>
      let _instr := Instruction.decode raw
      if irq.timer1 || irq.timer2 || irq.uart then
        ⟨none, { cpu with
          regs := cpu.regs.set 0 0,
          pc := EXCEPTION_VECTOR,
          sr := cpu.sr &&& 0xFFFFFFEF,
          epc := cpu.pc,
          cause := if irq.timer1 then cause.TIMER1_IRQ
            else if irq.timer2 then cause.TIMER2_IRQ
            else cause.UART_IRQ }, bus1⟩
      else
        Cpu.exec B cpu bus1 _instr

/-! ## Timer (src/devices/timer.rs) -/

def ENABLED : Nat := 0x1

def IRQ_ENABLED : Nat := 0x2

def ONE_SHOT : Nat := 0x4

structure Timer where
  ctrl : Nat
  counter : Nat
  period : Nat
  irq : Bool
deriving DecidableEq

/-- `Timer::new`. -/
def Timer.new : Timer :=
  { ctrl := ENABLED ||| IRQ_ENABLED, counter := 0, period := 0, irq := false }

/-- `Timer::reset`. -/
def Timer.reset (t : Timer) : Timer := { t with counter := 0 }

/-- `Timer::set_ctrl`. -/
def Timer.set_ctrl (t : Timer) (c : Nat) : Timer := { t with ctrl := c }

/-- `Timer::set_period`. -/
def Timer.set_period (t : Timer) (p : Nat) : Timer :=
  { t with period := p, counter := 0 }

/-- `Timer::ack_irq`. -/
def Timer.ack_irq (t : Timer) : Timer := { t with irq := false }

/-- `Timer::tick` (`self.ctrl &= !ENABLED` in the one-shot arm is the
`u32` mask `0xFFFFFFFE`, clearing the `EN` bit). -/
def Timer.tick (t : Timer) : Timer :=
  if t.period = 0 then t
  else if t.ctrl &&& ENABLED = 0 then t
  else
    let counter1 := wadd t.counter 1
    if t.period ≤ counter1 then
      let t1 := if t.ctrl &&& IRQ_ENABLED ≠ 0 then { t with counter := counter1, irq := true }
        else { t with counter := counter1 }
      if t1.ctrl &&& ONE_SHOT ≠ 0 then { t1 with ctrl := t1.ctrl &&& 0xFFFFFFFE }
      else { t1 with counter := 0 }
    else { t with counter := counter1 }

/-! ## UART (src/devices/uart.rs) -/

def TX_READY : Nat := 1

def RX_AVAILABLE : Nat := 2

def IRQ_ENABLE : Nat := 128

/-- The UART state of src/devices/uart.rs, with the polymorphic backend
left out: `tick`/`poll_rx` and the backend are not needed for the
status-register claims, so only the register state is embedded. -/
structure Uart where
  status : Nat
  rx_buffer : Option Nat
  irq : Bool
deriving DecidableEq

/-- `Uart::new` (register state; the backend argument is dropped). -/
def Uart.new : Uart := { status := TX_READY, rx_buffer := none, irq := false }

/-- `Uart::set_status`: mask out the read-only bits `TX_READY` and
`RX_AVAILABLE` (`val & !(TX_READY | RX_AVAILABLE)` on `u32`), then clear
`irq` if `IRQ_ENABLE` is clear in the stored status. -/
def Uart.set_status (u : Uart) (val : Nat) : Uart :=
  let u1 := { u with status := val &&& 0xFFFFFFFC }
  if u1.status &&& IRQ_ENABLE = 0 then { u1 with irq := false } else u1

/-- `Uart::read_rx`. -/
def Uart.read_rx (u : Uart) : Nat × Uart :=
  ( u.rx_buffer.getD 0
  , { u with rx_buffer := none, status := u.status &&& 0xFFFFFFFD, irq := false } )

/-! ## The NovaBus and its memory regions (src/bus.rs) -/

inductive BusError where
  | Misaligned : Nat → BusError
  | OutOfBounds : Nat → BusError
  | DeviceFault : Nat → BusError
deriving DecidableEq

/-- Modelled from the spec: `devices/ram.rs` is not under src/. Per §2
and §4.2 the RAM is a fixed-size byte array with bounds-checked 8-bit
and 32-bit access; 32-bit access is four consecutive little-endian
bytes. The byte store is a function so that the 1 MiB array stays
cheap to carry around. -/
structure Ram where
  size : Nat
  data : Nat → Nat

def Ram.new (size : Nat) : Ram := { size := size, data := fun _ => 0 }

def Ram.read8 (r : Ram) (addr : Nat) : Except BusError Nat :=
  if addr < r.size then Except.ok (r.data addr)
  else Except.error (BusError.OutOfBounds addr)

def Ram.write8 (r : Ram) (addr v : Nat) : Except BusError Ram :=
  if addr < r.size then
    Except.ok { r with data := fun i => if i = addr then v else r.data i }
  else Except.error (BusError.OutOfBounds addr)

def Ram.write32 (r : Ram) (addr v : Nat) : Except BusError Ram :=
  if addr + 3 < r.size then
    Except.ok { r with data := (fun i =>
        if i = addr then v % 256
        else if i = addr + 1 then v / 256 % 256
        else if i = addr + 2 then v / 65536 % 256
        else if i = addr + 3 then v / 16777216 % 256
        else r.data i) }
  else Except.error (BusError.OutOfBounds addr)

/-- `Vram` (src/devices/vram.rs): `Vec<u8>` backing store with
`check_range` bounds checks. Only `read8`/`write8` are reached through
the bus, so only they are embedded. -/
structure Vram where
  data : List Nat
deriving DecidableEq

def Vram.new (size : Nat) : Vram := { data := List.replicate size 0 }

def Vram.read8 (v : Vram) (offset : Nat) : Except BusError Nat :=
  if offset + 1 > v.data.length then Except.error (BusError.OutOfBounds offset)
  else Except.ok (v.data.getD offset 0)

def Vram.write8 (v : Vram) (offset val : Nat) : Except BusError Vram :=
  if offset + 1 > v.data.length then Except.error (BusError.OutOfBounds offset)
  else Except.ok { data := v.data.set offset val }

/-- Modelled from the spec: `devices/font.rs` is not under src/. Per §2
and §4.2 the Font RAM is a fixed-size byte array with the same
bounds-checked access rules as the VRAM. -/
structure FontRam where
  data : List Nat
deriving DecidableEq

def FontRam.new (size : Nat) : FontRam := { data := List.replicate size 0 }

def FontRam.read8 (f : FontRam) (offset : Nat) : Except BusError Nat :=
  if offset + 1 > f.data.length then Except.error (BusError.OutOfBounds offset)
  else Except.ok (f.data.getD offset 0)

def FontRam.write8 (f : FontRam) (offset val : Nat) : Except BusError FontRam :=
  if offset + 1 > f.data.length then Except.error (BusError.OutOfBounds offset)
  else Except.ok { data := f.data.set offset val }

/-- Modelled from the spec: src/bus.rs uses a UART revision
(`Uart::new()` with no backend, and a `write8` transmit method) that is
not under src/. Per §4.4, writing a byte to TX emits it to the backend
(recorded here in `tx`) and leaves `TX_READY` set; `status()` reads the
status register. -/
structure BusUart where
  status : Nat
  irq : Bool
  tx : List Nat
deriving DecidableEq

def BusUart.new : BusUart := { status := TX_READY, irq := false, tx := [] }

def BusUart.write8 (u : BusUart) (_reg byte : Nat) : BusUart :=
  { u with tx := u.tx ++ [byte], status := u.status ||| TX_READY }

structure NovaBus where
  ram : Ram
  vram : Vram
  font_ram : FontRam
  timer1 : Timer
  timer2 : Timer
  uart : BusUart

def RAM_BASE : Nat := 0x00000000

def RAM_SIZE : Nat := 1048576

def RAM_END : Nat := RAM_BASE + RAM_SIZE - 1

def VRAM_BASE : Nat := 0x80000000

def VRAM_SIZE : Nat := 0x1000

def FONT_BASE : Nat := 0x80001000

def FONT_SIZE : Nat := 0x1000

def MMIO_BASE : Nat := 0x80002100

def MMIO_END : Nat := 0x800022FF

def TIMER1_CTRL : Nat := 0x80002100

def TIMER1_PERIOD : Nat := 0x80002104

def TIMER1_COUNT : Nat := 0x80002108

def TIMER1_RESET : Nat := 0x8000210C

def TIMER1_ACK : Nat := 0x80002110

def TIMER2_CTRL : Nat := 0x80002120

def TIMER2_PERIOD : Nat := 0x80002124

def TIMER2_COUNT : Nat := 0x80002128

def TIMER2_RESET : Nat := 0x8000212C

def TIMER2_ACK : Nat := 0x80002130

def UART_TX : Nat := 0x80002200

def UART_STATUS : Nat := 0x80002204

/-- `NovaBus::new`. -/
def NovaBus.new : NovaBus :=
  { ram := Ram.new RAM_SIZE
  , vram := Vram.new VRAM_SIZE
  , font_ram := FontRam.new FONT_SIZE
  , timer1 := Timer.new
  , timer2 := Timer.new
  , uart := BusUart.new }

/-- `NovaBus::in_range`. -/
def NovaBus.in_range (addr base size : Nat) : Bool :=
  base ≤ addr && addr < base + size

/-- `NovaBus::mmio_read32` (no arm mutates, so the state is not
returned). -/
def NovaBus.mmio_read32 (b : NovaBus) (addr : Nat) : Except BusError Nat :=
  if addr = TIMER1_CTRL then Except.ok b.timer1.ctrl
  else if addr = TIMER1_PERIOD then Except.ok b.timer1.period
  else if addr = TIMER1_COUNT then Except.ok b.timer1.counter
  else if addr = TIMER1_ACK then Except.ok 0
  else if addr = TIMER1_RESET then Except.ok 0
  else if addr = TIMER2_CTRL then Except.ok b.timer2.ctrl
  else if addr = TIMER2_PERIOD then Except.ok b.timer2.period
  else if addr = TIMER2_COUNT then Except.ok b.timer2.counter
  else if addr = TIMER2_ACK then Except.ok 0
  else if addr = TIMER2_RESET then Except.ok 0
  else if addr = UART_STATUS then Except.ok b.uart.status
  else if addr = UART_TX then Except.ok 0
  else Except.error (BusError.OutOfBounds addr)

/-- `NovaBus::mmio_write32`. -/
def NovaBus.mmio_write32 (b : NovaBus) (addr value : Nat) : Except BusError NovaBus :=
  if addr = TIMER1_CTRL then Except.ok { b with timer1 := b.timer1.set_ctrl value }
  else if addr = TIMER1_PERIOD then Except.ok { b with timer1 := b.timer1.set_period value }
  else if addr = TIMER1_COUNT then Except.ok b
  else if addr = TIMER1_ACK then Except.ok { b with timer1 := b.timer1.ack_irq }
  else if addr = TIMER1_RESET then Except.ok { b with timer1 := b.timer1.reset }
  else if addr = TIMER2_CTRL then Except.ok { b with timer2 := b.timer2.set_ctrl value }
  else if addr = TIMER2_PERIOD then Except.ok { b with timer2 := b.timer2.set_period value }
  else if addr = TIMER2_COUNT then Except.ok b
  else if addr = TIMER2_ACK then Except.ok { b with timer2 := b.timer2.ack_irq }
  else if addr = TIMER2_RESET then Except.ok { b with timer2 := b.timer2.reset }
  else if addr = UART_STATUS then Except.ok b
  else if addr = UART_TX then Except.ok { b with uart := b.uart.write8 0 (value &&& 0xFF) }
  else Except.error (BusError.OutOfBounds addr)

/-- `NovaBus::mmio_read8`: read the aligned word and take the byte. -/
def NovaBus.mmio_read8 (b : NovaBus) (addr : Nat) : Except BusError Nat :=
  match b.mmio_read32 (addr &&& 0xFFFFFFFC) with
  | Except.error e => Except.error e
  | Except.ok word => Except.ok ((word >>> ((addr &&& 3) * 8)) &&& 0xFF)

/-- `NovaBus::mmio_write8`: `UART_TX` is natively byte-wide; everything
else is a read-modify-write on the aligned word. -/
def NovaBus.mmio_write8 (b : NovaBus) (addr value : Nat) : Except BusError NovaBus :=
  if addr = UART_TX then Except.ok { b with uart := b.uart.write8 0 value }
  else
    match b.mmio_read32 (addr &&& 0xFFFFFFFC) with
    | Except.error e => Except.error e
    | Except.ok word =>
      b.mmio_write32 (addr &&& 0xFFFFFFFC)
        ((word &&& (4294967295 ^^^ (0xFF <<< ((addr &&& 3) * 8))))
          ||| (value <<< ((addr &&& 3) * 8)))

/-- `<NovaBus as Bus>::load8` (no reached arm mutates). -/
def NovaBus.load8 (b : NovaBus) (addr : Nat) : Except BusError Nat :=
  if addr ≤ RAM_END then b.ram.read8 addr
  else if NovaBus.in_range addr VRAM_BASE VRAM_SIZE then b.vram.read8 (addr - VRAM_BASE)
  else if NovaBus.in_range addr FONT_BASE FONT_SIZE then b.font_ram.read8 (addr - FONT_BASE)
  else if MMIO_BASE ≤ addr ∧ addr ≤ MMIO_END then b.mmio_read8 addr
  else Except.error (BusError.OutOfBounds addr)

/-- `<NovaBus as Bus>::load32`. -/
def NovaBus.load32 (b : NovaBus) (addr : Nat) : Except BusError Nat :=
  if addr &&& 3 ≠ 0 then Except.error (BusError.Misaligned addr)
  else if addr ≤ RAM_END then
    if RAM_END < addr + 3 then Except.error (BusError.OutOfBounds (addr + 3))
    else
      match b.ram.read8 addr, b.ram.read8 (addr + 1),
          b.ram.read8 (addr + 2), b.ram.read8 (addr + 3) with
      | Except.ok b0, Except.ok b1, Except.ok b2, Except.ok b3 =>
        Except.ok (b0 + 256 * b1 + 65536 * b2 + 16777216 * b3)
      | Except.error e, _, _, _ => Except.error e
      | _, Except.error e, _, _ => Except.error e
      | _, _, Except.error e, _ => Except.error e
      | _, _, _, Except.error e => Except.error e
  else if MMIO_BASE ≤ addr ∧ addr ≤ MMIO_END then b.mmio_read32 addr
  else Except.error (BusError.OutOfBounds addr)

/-- `<NovaBus as Bus>::store8`. -/
def NovaBus.store8 (b : NovaBus) (addr value : Nat) : Except BusError Unit × NovaBus :=
  if addr ≤ RAM_END then
    match b.ram.write8 addr value with
    | Except.error e => (Except.error e, b)
    | Except.ok ram2 => (Except.ok (), { b with ram := ram2 })
  else if NovaBus.in_range addr VRAM_BASE VRAM_SIZE then
    match b.vram.write8 (addr - VRAM_BASE) value with
    | Except.error e => (Except.error e, b)
    | Except.ok vram2 => (Except.ok (), { b with vram := vram2 })
  else if NovaBus.in_range addr FONT_BASE FONT_SIZE then
    match b.font_ram.write8 (addr - FONT_BASE) value with
    | Except.error e => (Except.error e, b)
    | Except.ok font2 => (Except.ok (), { b with font_ram := font2 })
  else if MMIO_BASE ≤ addr ∧ addr ≤ MMIO_END then
    match b.mmio_write8 addr value with
    | Except.error e => (Except.error e, b)
    | Except.ok b2 => (Except.ok (), b2)
  else (Except.error (BusError.OutOfBounds addr), b)

/-- `<NovaBus as Bus>::store32`. Note the source's MMIO arm: after a
successful `mmio_write32` the function still falls through to
`Err(OutOfBounds(addr))`, so the mutated bus is returned with an error. -/
def NovaBus.store32 (b : NovaBus) (addr value : Nat) : Except BusError Unit × NovaBus :=
  if addr &&& 3 ≠ 0 then (Except.error (BusError.Misaligned addr), b)
  else if addr ≤ RAM_END then
    match b.ram.write32 addr value with
    | Except.error e => (Except.error e, b)
    | Except.ok ram2 => (Except.ok (), { b with ram := ram2 })
  else if MMIO_BASE ≤ addr ∧ addr ≤ MMIO_END then
    match b.mmio_write32 addr value with
    | Except.error e => (Except.error e, b)
    | Except.ok b2 => (Except.error (BusError.OutOfBounds addr), b2)
  else (Except.error (BusError.OutOfBounds addr), b)

/-! ## Assembler branch encoding (src/assembler.rs) -/

inductive AsmError where
  | UnknownLabel : AsmError
  | InvalidImmediate : AsmError
deriving DecidableEq

/-- The generic I-type encoder `enc_i` nested in `encode_instruction`:
bits 31..26 opcode, 25..21 `rd`, 20..16 `rs`, 15..0 immediate
(`imm as u16 as u32` folded in via `ofInt16`). -/
def enc_i (op rd rs : Nat) (imm : Int) : Nat :=
  (op <<< 26) ||| (rd <<< 21) ||| (rs <<< 16) ||| ofInt16 imm

/-- `branch_imm`: displacement `(target as i32 - pc_next as i32) / 4`
(the `i32` subtraction modelled with two's-complement wrapping, the
division with Rust's truncating `/`), rejected unless it fits `i16`. -/
def branch_imm (target pc : Nat) : Except AsmError Int :=
  let pc_next := wadd pc 4
  let diff := Int.tdiv (toInt32 (wsub target pc_next)) 4
  if diff < -32768 ∨ 32767 < diff then Except.error AsmError.InvalidImmediate
  else Except.ok diff

/-- The four branch kinds of the assembler IR (`Instruction::Beq` …). -/
inductive BranchKind where
  | beq | bne | blt | bge
deriving DecidableEq

/-- Opcode selected by the branch arms of `encode_instruction`. -/
def BranchKind.opc : BranchKind → Nat
  | BranchKind.beq => opcode.BEQ
  | BranchKind.bne => opcode.BNE
  | BranchKind.blt => opcode.BLT
  | BranchKind.bge => opcode.BGE

/-- The branch arms of `encode_instruction`: the IR operands `rs`, `rt`
are fed to `enc_i` as its `rd` and `rs` parameters (encoding slots
25..21 and 20..16), with the label already resolved to `targetAddr`. -/
def encode_branch (k : BranchKind) (rs rt targetAddr pc : Nat) : Except AsmError Nat :=
  match branch_imm targetAddr pc with
  | Except.error e => Except.error e
  | Except.ok imm => Except.ok (enc_i k.opc rs rt imm)

/-! ## NV32 writer (src/bin/nvasm.rs) and loader (src/bin/nova3201.rs) -/

inductive SegmentKind where
  | CodeData | Bss
deriving DecidableEq

structure NvSegment where
  kind : SegmentKind
  base_addr : Nat
  length_words : Nat
  words : List Nat
deriving DecidableEq

/-- Little-endian bytes of a `u16` (`to_le_bytes`). -/
def u16le (n : Nat) : List Nat := [n % 256, n / 256 % 256]

/-- Little-endian bytes of a `u32` (`to_le_bytes`). -/
def u32le (n : Nat) : List Nat :=
  [n % 256, n / 256 % 256, n / 65536 % 256, n / 16777216 % 256]

def segKindByte : SegmentKind → Nat
  | SegmentKind.CodeData => 0
  | SegmentKind.Bss => 1

/-- Bytes written by `write_nv32` for one segment: the 16-byte header
(kind, flags, reserved, `base_addr`, `length_words`, reserved2) and,
for code/data, the payload words. -/
def segBytes (seg : NvSegment) : List Nat :=
  [segKindByte seg.kind, 0] ++ u16le 0 ++ u32le seg.base_addr
    ++ u32le seg.length_words ++ u32le 0
    ++ (match seg.kind with
        | SegmentKind.CodeData => seg.words.flatMap u32le
        | SegmentKind.Bss => [])

/-- `write_nv32`: magic, version 1, segment count (`as u16` truncation
is implicit in `u16le`), reserved word, then each segment. The byte
sink is modelled as the produced byte list. -/
def write_nv32 (segments : List NvSegment) : List Nat :=
  [0x4E, 0x56, 0x33, 0x32] ++ u16le 1 ++ u16le segments.length ++ u32le 0
    ++ segments.flatMap segBytes

inductive LoadError where
  | Eof | InvalidHeader | UnsupportedVersion | UnknownKind
deriving DecidableEq

/-- One section as processed by `load_nv32`: the parsed header fields
and the `(addr, word)` pairs it writes to the bus (`mach.bus.write32`
is modelled as recording the write). -/
structure LoadedSeg where
  kind : Nat
  base_addr : Nat
  size_words : Nat
  writes : List (Nat × Nat)
deriving DecidableEq

/-- `u32::from_le_bytes` on the first four entries of a byte list. -/
def u32from (l : List Nat) : Nat :=
  l.getD 0 0 % 256 + 256 * (l.getD 1 0 % 256) + 65536 * (l.getD 2 0 % 256)
    + 16777216 * (l.getD 3 0 % 256)

/-- The segment loop of `load_nv32`: for each of the remaining `count`
sections read the 16-byte header, then either read and write the
payload words (kind 0), zero-fill (kind 1), or fail (other kinds).
The payload byte count `size_words * 4` is a `u32` multiplication and
wraps (so at `size_words = 2^30` the buffer is empty and no words are
written); `chunks_exact(4)` then yields one write per whole word of the
buffer, word `i` going to `base_addr + 4·i` with the `u32` address
arithmetic wrapped. `read_exact` on a short stream is an end-of-file
error. -/
def loadSegs : Nat → List Nat → Except LoadError (List LoadedSeg)
  | 0, _ => Except.ok []
  | n + 1, bytes =>
    if bytes.length < 16 then Except.error LoadError.Eof
    else
      let kind := bytes.getD 0 0 % 256
      let base := u32from (bytes.drop 4)
      let size := u32from (bytes.drop 8)
      let rest := bytes.drop 16
      if kind = 0 then
        if rest.length < wrap32 (size * 4) then Except.error LoadError.Eof
        else
          match loadSegs n (rest.drop (wrap32 (size * 4))) with
          | Except.error e => Except.error e
          | Except.ok tl =>
            Except.ok (⟨0, base, size,
              (List.range (wrap32 (size * 4) / 4)).map
                (fun i => (wrap32 (base + 4 * i), u32from (rest.drop (4 * i))))⟩ :: tl)
      else if kind = 1 then
        match loadSegs n rest with
        | Except.error e => Except.error e
        | Except.ok tl =>
          Except.ok (⟨1, base, size,
            (List.range size).map (fun i => (wrap32 (base + 4 * i), 0))⟩ :: tl)
      else Except.error LoadError.UnknownKind

/-- `load_nv32`: 12-byte file header (magic, version, count, reserved),
then the segment loop. -/
def load_nv32 (bytes : List Nat) : Except LoadError (List LoadedSeg) :=
  if bytes.length < 12 then Except.error LoadError.Eof
  else if bytes.take 4 ≠ [0x4E, 0x56, 0x33, 0x32] then Except.error LoadError.InvalidHeader
  else if bytes.getD 4 0 % 256 + 256 * (bytes.getD 5 0 % 256) ≠ 1 then
    Except.error LoadError.UnsupportedVersion
  else loadSegs (bytes.getD 6 0 % 256 + 256 * (bytes.getD 7 0 % 256)) (bytes.drop 12)

/-- The loader outcome the round-trip claim predicts for one segment:
the same kind byte, base address and word count; for kind 0 the writes
put payload word `i` at `base_addr + 4*i`, for kind 1 they zero-fill. -/
def expectedLoad (seg : NvSegment) : LoadedSeg :=
  { kind := segKindByte seg.kind
  , base_addr := seg.base_addr
  , size_words := seg.length_words
  , writes := match seg.kind with
      | SegmentKind.CodeData =>
        (List.range seg.length_words).map
          (fun i => (seg.base_addr + 4 * i, seg.words.getD i 0))
      | SegmentKind.Bss =>
        (List.range seg.length_words).map (fun i => (seg.base_addr + 4 * i, 0)) }

/-- Well-formed segment: header fields and payload words are `u32`
values, the payload byte count `4 * length_words` fits a `u32` (so the
loader's `size_words * 4` does not wrap), the kind-0 payload has
exactly `length_words` words, and the loader's write addresses do not
wrap around 2^32. -/
def wfSeg (seg : NvSegment) : Prop :=
  seg.base_addr < 4294967296 ∧ seg.length_words < 4294967296 ∧
  4 * seg.length_words < 4294967296 ∧
  seg.base_addr + 4 * seg.length_words ≤ 4294967296 ∧
  (∀ w ∈ seg.words, w < 4294967296) ∧
  (seg.kind = SegmentKind.CodeData → seg.words.length = seg.length_words)

/-! ## Concrete bus instances used to exercise `Cpu.step` -/

/-- A bus whose 32-bit reads always return the fixed word `w` and whose
other operations succeed trivially. -/
def fixedBus (w : Nat) : BusOps Unit Unit :=
  { read8 := fun s _ => (Except.ok 0, s)
  , read32 := fun s _ => (Except.ok w, s)
  , write8 := fun s _ _ => (Except.ok (), s)
  , write32 := fun s _ _ => (Except.ok (), s) }

/-- A bus whose every operation fails with the fixed error `e`. -/
def failBus (e : Nat) : BusOps Unit Nat :=
  { read8 := fun s _ => (Except.error e, s)
  , read32 := fun s _ => (Except.error e, s)
  , write8 := fun s _ _ => (Except.error e, s)
  , write32 := fun s _ _ => (Except.error e, s) }

/-- A bus that fetches the fixed word `w` but fails data accesses with
the fixed error `e`. -/
def fetchOnlyBus (w e : Nat) : BusOps Unit Nat :=
  { read8 := fun s _ => (Except.error e, s)
  , read32 := fun s a => (if a = 0 then Except.ok w else Except.error e, s)
  , write8 := fun s _ _ => (Except.error e, s)
  , write32 := fun s _ _ => (Except.error e, s) }

deriving instance DecidableEq for Except

attribute [simp] opcode.ADD opcode.SUB opcode.AND opcode.OR opcode.XOR
attribute [simp] opcode.SLT opcode.SLTU opcode.SHL opcode.SHR opcode.SAR
attribute [simp] opcode.ADDI opcode.ANDI opcode.ORI opcode.XORI opcode.SLTI
attribute [simp] opcode.SLTIU opcode.LUI opcode.LW opcode.SW opcode.LB opcode.SB
attribute [simp] opcode.BEQ opcode.BNE opcode.BLT opcode.BGE
attribute [simp] opcode.J opcode.JAL opcode.JR opcode.JALR opcode.NOP opcode.HALT

/-! ## Generic helper lemmas -/

theorem getD_set_zero (l : List Nat) : (l.set 0 0).getD 0 0 = 0 := by
  cases l <;> simp

theorem getElem_set_zero (l : List Nat) : ((l.set 0 0)[0]?).getD 0 = 0 := by
  cases l <;> simp

theorem testBit_ge_false (x n i : Nat) (hx : x < 2 ^ n) (h : n ≤ i) :
    x.testBit i = false :=
  Nat.testBit_lt_two_pow (lt_of_lt_of_le hx (Nat.pow_le_pow_right (by norm_num) h))

/-! ## Properties of `Cpu.exec` shared by several results -/

theorem exec_error_cpu_unchanged {σ ε : Type} (B : BusOps σ ε) (cpu : Cpu)
    (bus : σ) (instr : Instruction) (e : ε)
    (h : (Cpu.exec B cpu bus instr).res = some e) :
    (Cpu.exec B cpu bus instr).cpu = cpu := by
  rcases hE : Cpu.exec B cpu bus instr with ⟨r, c, b2⟩
  rw [hE] at h
  dsimp only at h ⊢
  unfold Cpu.exec at hE
  repeat' split at hE
  all_goals cases hE
  all_goals simp_all

theorem exec_ok_r0_zero {σ ε : Type} (B : BusOps σ ε) (cpu : Cpu)
    (bus : σ) (instr : Instruction)
    (h : (Cpu.exec B cpu bus instr).res = none) :
    (Cpu.exec B cpu bus instr).cpu.regs.getD 0 0 = 0 := by
  rcases hE : Cpu.exec B cpu bus instr with ⟨r, c, b2⟩
  rw [hE] at h
  dsimp only at h ⊢
  unfold Cpu.exec at hE
  repeat' split at hE
  all_goals cases hE
  all_goals simp_all [getElem_set_zero]

/-! ## C1: `store32` over MMIO -/

/-- C1: on the aligned MMIO register address `TIMER1_CTRL`
(`0x8000_2100`), `NovaBus.store32` performs the device write (the timer
control register receives the stored value) and nevertheless returns
`Err(OutOfBounds(addr))`: the source falls through to the error after
the successful MMIO write, contradicting the claim that a successful
MMIO `store32` returns success. -/
theorem c1_store32_mmio_bug :
    (NovaBus.store32 NovaBus.new 0x80002100 5).1 =
      Except.error (BusError.OutOfBounds 0x80002100) ∧
    (NovaBus.store32 NovaBus.new 0x80002100 5).2.timer1.ctrl = 5 := by
  constructor <;> decide

/-! ## C4: `regs[0]` after `step` -/

/-- C4 counterexample: a halted CPU whose `regs[0]` is 1 takes a
successful `step` (the halt short-circuit returns `Ok(())` without
touching the register file), after which `regs[0]` is still 1, not 0 —
so the claim fails for arbitrary CPU states. -/
theorem c4_cex :
    (Cpu.step (fixedBus 0)
      { Cpu.new with halted := true, regs := (List.replicate 32 0).set 0 1 }
      () noIrq).res = none ∧
    (Cpu.step (fixedBus 0)
      { Cpu.new with halted := true, regs := (List.replicate 32 0).set 0 1 }
      () noIrq).cpu.regs.getD 0 0 = 1 := by
  constructor <;> rfl

/-- C4 (amended): for every non-halted CPU state, bus and IRQ snapshot,
after any successful `cpu.step` the register `regs[0]` equals 0 (every
commit path forces `next_regs[0] = 0`). -/
theorem c4_r0_zero_after_step {σ ε : Type} (B : BusOps σ ε) (cpu : Cpu)
    (bus : σ) (irq : IrqLines) (hhalt : cpu.halted = false)
    (hok : (Cpu.step B cpu bus irq).res = none) :
    (Cpu.step B cpu bus irq).cpu.regs.getD 0 0 = 0 := by
  rcases hE : Cpu.step B cpu bus irq with ⟨r, c, b2⟩
  rw [hE] at hok
  dsimp only at hok ⊢
  unfold Cpu.step at hE
  rw [hhalt] at hE
  simp only [Bool.false_eq_true, if_false] at hE
  split at hE
  · cases hE; simp at hok
  · split at hE
    · cases hE; simp [getElem_set_zero]
    · have h0 := exec_ok_r0_zero _ _ _ _ (by rw [hE]; exact hok)
      rw [hE] at h0
      exact h0

/-- C4 witness: stepping the reset CPU on the all-zero bus succeeds and
leaves `regs[0] = 0`. -/
theorem c4_witness :
    (Cpu.step (fixedBus 0) Cpu.new () noIrq).cpu.regs.getD 0 0 = 0 :=
  c4_r0_zero_after_step (fixedBus 0) Cpu.new () noIrq rfl rfl

/-! ## C9: UART status-register writes -/

/-- C9: for every value written to the UART status register via
`set_status`, the read-only bits `TX_READY` (bit 0) and `RX_AVAILABLE`
(bit 1) of the resulting status are masked to 0, every other `u32` bit
is taken from the written value, and if the written value has
`IRQ_ENABLE` (bit 7) clear then any pending `irq` is cleared. -/
theorem c9_uart_status_write (u : Uart) (val : Nat) :
    ((u.set_status val).status.testBit 0 = false) ∧
    ((u.set_status val).status.testBit 1 = false) ∧
    (∀ i : Nat, 2 ≤ i → i < 32 → (u.set_status val).status.testBit i = val.testBit i) ∧
    (val &&& IRQ_ENABLE = 0 → (u.set_status val).irq = false) := by
  have hstat : (u.set_status val).status = val &&& 0xFFFFFFFC := by
    unfold Uart.set_status
    dsimp only
    split <;> rfl
  refine ⟨?_, ?_, ?_, ?_⟩
  · rw [hstat, Nat.testBit_and]
    simp [show Nat.testBit 0xFFFFFFFC 0 = false by decide]
  · rw [hstat, Nat.testBit_and]
    simp [show Nat.testBit 0xFFFFFFFC 1 = false by decide]
  · intro i h2 h32
    rw [hstat, Nat.testBit_and]
    have hm : Nat.testBit 0xFFFFFFFC i = true := by interval_cases i <;> decide
    simp [hm]
  · intro h
    have hm : (val &&& 0xFFFFFFFC) &&& IRQ_ENABLE = 0 := by
      rw [Nat.and_assoc]
      have : (0xFFFFFFFC &&& IRQ_ENABLE : Nat) = IRQ_ENABLE := by decide
      rw [this, h]
    unfold Uart.set_status
    dsimp only
    rw [if_pos hm]

/-- C9 witness: writing `0x7F` (IRQ_ENABLE clear, read-only bits set in
the written value) clears a pending irq and the read-only bits, while
bit 5 comes from the written value. -/
theorem c9_witness :
    (({ Uart.new with irq := true } : Uart).set_status 0x7F).irq = false ∧
    (({ Uart.new with irq := true } : Uart).set_status 0x7F).status.testBit 0 = false ∧
    (({ Uart.new with irq := true } : Uart).set_status 0x7F).status.testBit 5 = Nat.testBit 0x7F 5 := by
  obtain ⟨h1, h2, h3, h4⟩ := c9_uart_status_write { Uart.new with irq := true } 0x7F
  exact ⟨h4 (by decide), h1, h3 5 (by decide) (by decide)⟩

/-! ## C6: timer periodicity -/

theorem succ_mod (N k : Nat) : (k + 1) % N = (k % N + 1) % N := by
  conv_lhs => rw [← Nat.div_add_mod k N]
  rw [Nat.add_assoc, Nat.mul_add_mod]

/-- One tick of an enabled, irq-enabled, periodic timer with
`counter < period`: raise the counter, and on reaching the period
assert `irq` and reset the counter. -/
theorem timer_tick_run (N c : Nat) (b : Bool) (h1 : 1 ≤ N)
    (h2 : N < 4294967296) (hc : c < N) :
    Timer.tick ⟨3, c, N, b⟩ =
      (if c + 1 = N then (⟨3, 0, N, true⟩ : Timer) else ⟨3, c + 1, N, b⟩) := by
  unfold Timer.tick wadd
  dsimp only
  rw [if_neg (show ¬ N = 0 by omega)]
  rw [if_neg (show ¬ (3 &&& ENABLED = 0) by decide)]
  rw [Nat.mod_eq_of_lt (show c + 1 < 4294967296 by omega)]
  by_cases he : c + 1 = N
  · rw [if_pos (show N ≤ c + 1 by omega)]
    rw [if_pos (show (3 &&& IRQ_ENABLED ≠ 0) by decide)]
    rw [if_neg (show ¬ (3 &&& ONE_SHOT ≠ 0) by decide)]
    rw [if_pos he]
  · rw [if_neg (show ¬ (N ≤ c + 1) by omega)]
    rw [if_neg he]

/-- State of the claimed timer configuration after `k` ticks: the
control and period are unchanged, the counter cycles through `k % N`,
and the sticky `irq` flag is set exactly once `k` has reached `N`. -/
theorem timer_state (N : Nat) (h1 : 1 ≤ N) (h2 : N < 4294967296) :
    ∀ k : Nat, Timer.tick^[k] ⟨3, 0, N, false⟩ = ⟨3, k % N, N, decide (N ≤ k)⟩ := by
  intro k
  induction k with
  | zero =>
    have e : ¬ (N ≤ 0) := by omega
    simp [e]
  | succ k ih =>
    rw [Function.iterate_succ_apply', ih]
    have hr : k % N < N := Nat.mod_lt _ (by omega)
    rw [timer_tick_run N (k % N) (decide (N ≤ k)) h1 h2 hr]
    by_cases he : k % N + 1 = N
    · rw [if_pos he]
      have e0 : (k + 1) % N = 0 := by rw [succ_mod, he, Nat.mod_self]
      have e1 : N ≤ k + 1 := by
        have := Nat.mod_le k N
        omega
      simp [e0, e1]
    · rw [if_neg he]
      have e0 : (k + 1) % N = k % N + 1 := by
        rw [succ_mod]
        exact Nat.mod_eq_of_lt (by omega)
      rw [e0]
      have e1 : decide (N ≤ k) = decide (N ≤ k + 1) := by
        rw [decide_eq_decide]
        constructor
        · intro h; omega
        · intro h
          by_contra hNk
          have hk : k < N := by omega
          rw [Nat.mod_eq_of_lt hk] at he
          omega
      rw [e1]

/-- C6: a timer with `period = N ≥ 1`, `EN` and `IE` set and `ONESHOT`
clear, started from `counter = 0`, cycles its counter through `k % N`
and asserts its irq exactly on every `N`-th tick (the `(k+1)`-th tick
raises `irq` from a cleared state iff `N` divides `k+1`, and the sticky
flag is set once `k ≥ N`); a tick with `period = 0` or `EN` clear
changes nothing. -/
theorem c6_timer_periodic :
    (∀ t : Timer, t.period = 0 ∨ t.ctrl &&& ENABLED = 0 → Timer.tick t = t) ∧
    (∀ N k : Nat, 1 ≤ N → N < 4294967296 →
      Timer.tick^[k] ⟨ENABLED ||| IRQ_ENABLED, 0, N, false⟩ =
        ⟨ENABLED ||| IRQ_ENABLED, k % N, N, decide (N ≤ k)⟩ ∧
      (Timer.tick { (Timer.tick^[k] ⟨ENABLED ||| IRQ_ENABLED, 0, N, false⟩) with
          irq := false }).irq = decide ((k + 1) % N = 0)) := by
  constructor
  · intro t h
    unfold Timer.tick
    by_cases hp : t.period = 0
    · rw [if_pos hp]
    · rcases h with h | h
      · exact absurd h hp
      · rw [if_neg hp, if_pos h]
  · intro N k h1 h2
    have h3 : (ENABLED ||| IRQ_ENABLED : Nat) = 3 := by decide
    rw [h3]
    refine ⟨timer_state N h1 h2 k, ?_⟩
    rw [timer_state N h1 h2 k]
    rw [show ({ (⟨3, k % N, N, decide (N ≤ k)⟩ : Timer) with irq := false } : Timer)
      = ⟨3, k % N, N, false⟩ from rfl]
    have hr : k % N < N := Nat.mod_lt _ (by omega)
    rw [timer_tick_run N (k % N) false h1 h2 hr]
    by_cases he : k % N + 1 = N
    · rw [if_pos he]
      have e0 : (k + 1) % N = 0 := by rw [succ_mod, he, Nat.mod_self]
      simp [e0]
    · rw [if_neg he]
      have e0 : (k + 1) % N = k % N + 1 := by
        rw [succ_mod]
        exact Nat.mod_eq_of_lt (by omega)
      simp [e0, he]

/-- C6 witness: a disabled timer tick is the identity; with `N = 2`,
after 3 ticks the counter is 1, the irq flag has been raised, and the
4th tick asserts irq again (`4 % 2 = 0`). -/
theorem c6_witness :
    Timer.tick ⟨0, 5, 7, false⟩ = ⟨0, 5, 7, false⟩ ∧
    Timer.tick^[3] ⟨ENABLED ||| IRQ_ENABLED, 0, 2, false⟩ =
      ⟨ENABLED ||| IRQ_ENABLED, 3 % 2, 2, decide (2 ≤ 3)⟩ ∧
    (Timer.tick { (Timer.tick^[3] ⟨ENABLED ||| IRQ_ENABLED, 0, 2, false⟩) with
        irq := false }).irq = decide ((3 + 1) % 2 = 0) := by
  obtain ⟨p1, p2⟩ := c6_timer_periodic
  obtain ⟨q1, q2⟩ := p2 2 3 (by decide) (by decide)
  exact ⟨p1 ⟨0, 5, 7, false⟩ (Or.inr (by decide)), q1, q2⟩

/-! ## C10: 32-bit bus operations on VRAM and Font RAM addresses -/

theorem land3_mod (n : Nat) : n &&& 3 = n % 4 := by
  simpa using Nat.and_pow_two_sub_one_eq_mod n 2

/-- C10: for every address in the VRAM range or the Font RAM range,
`load32` and `store32` fail (`Misaligned` when the address is not
4-aligned, `OutOfBounds` otherwise) and leave the bus unchanged, while
the byte operations `load8`/`store8` reach the VRAM (below
`0x8000_1000`) or the Font RAM (from `0x8000_1000`) backing array at
the region offset. -/
theorem c10_word_ops_reject_vram_font (b : NovaBus) (addr v : Nat)
    (hlo : 0x80000000 ≤ addr) (hhi : addr ≤ 0x80001FFF) :
    (NovaBus.load32 b addr =
      Except.error (if addr % 4 = 0 then BusError.OutOfBounds addr
        else BusError.Misaligned addr)) ∧
    (NovaBus.store32 b addr v =
      (Except.error (if addr % 4 = 0 then BusError.OutOfBounds addr
        else BusError.Misaligned addr), b)) ∧
    (addr ≤ 0x80000FFF → addr - VRAM_BASE < b.vram.data.length →
      NovaBus.load8 b addr = Except.ok (b.vram.data.getD (addr - VRAM_BASE) 0) ∧
      NovaBus.store8 b addr v =
        (Except.ok (), { b with vram := ⟨b.vram.data.set (addr - VRAM_BASE) v⟩ })) ∧
    (0x80001000 ≤ addr → addr - FONT_BASE < b.font_ram.data.length →
      NovaBus.load8 b addr = Except.ok (b.font_ram.data.getD (addr - FONT_BASE) 0) ∧
      NovaBus.store8 b addr v =
        (Except.ok (), { b with font_ram := ⟨b.font_ram.data.set (addr - FONT_BASE) v⟩ })) := by
  have hram : ¬ (addr ≤ RAM_END) := by unfold RAM_END RAM_BASE RAM_SIZE; omega
  have hmmio : ¬ (MMIO_BASE ≤ addr ∧ addr ≤ MMIO_END) := by
    unfold MMIO_BASE MMIO_END; omega
  refine ⟨?_, ?_, ?_, ?_⟩
  · unfold NovaBus.load32
    by_cases hm : addr % 4 = 0
    · rw [if_neg (show ¬ (addr &&& 3 ≠ 0) by rw [land3_mod]; omega)]
      rw [if_neg hram, if_neg hmmio, if_pos hm]
    · rw [if_pos (show addr &&& 3 ≠ 0 by rw [land3_mod]; omega), if_neg hm]
  · unfold NovaBus.store32
    by_cases hm : addr % 4 = 0
    · rw [if_neg (show ¬ (addr &&& 3 ≠ 0) by rw [land3_mod]; omega)]
      rw [if_neg hram, if_neg hmmio, if_pos hm]
    · rw [if_pos (show addr &&& 3 ≠ 0 by rw [land3_mod]; omega), if_neg hm]
  · intro hv hlen
    have hin : NovaBus.in_range addr VRAM_BASE VRAM_SIZE = true := by
      unfold NovaBus.in_range VRAM_BASE VRAM_SIZE
      simp only [Bool.and_eq_true, decide_eq_true_eq]
      omega
    constructor
    · unfold NovaBus.load8
      rw [if_neg hram, if_pos hin]
      unfold Vram.read8
      rw [if_neg (by omega)]
    · unfold NovaBus.store8
      rw [if_neg hram, if_pos hin]
      unfold Vram.write8
      rw [if_neg (by omega)]
  · intro hf hlen
    have hnv : ¬ (NovaBus.in_range addr VRAM_BASE VRAM_SIZE = true) := by
      unfold NovaBus.in_range VRAM_BASE VRAM_SIZE
      simp only [Bool.and_eq_true, decide_eq_true_eq]
      omega
    have hin : NovaBus.in_range addr FONT_BASE FONT_SIZE = true := by
      unfold NovaBus.in_range FONT_BASE FONT_SIZE
      simp only [Bool.and_eq_true, decide_eq_true_eq]
      omega
    constructor
    · unfold NovaBus.load8
      rw [if_neg hram, if_neg hnv, if_pos hin]
      unfold FontRam.read8
      rw [if_neg (by omega)]
    · unfold NovaBus.store8
      rw [if_neg hram, if_neg hnv, if_pos hin]
      unfold FontRam.write8
      rw [if_neg (by omega)]

/-- C10 witness: on the freshly constructed bus, an aligned VRAM
address fails `load32` with `OutOfBounds`, an unaligned Font RAM
address fails with `Misaligned`, and the byte operations reach the
VRAM array. -/
theorem c10_witness :
    NovaBus.load32 NovaBus.new 0x80000004 = Except.error (BusError.OutOfBounds 0x80000004) ∧
    NovaBus.load32 NovaBus.new 0x80001001 = Except.error (BusError.Misaligned 0x80001001) ∧
    NovaBus.load8 NovaBus.new 0x80000004 =
      Except.ok (NovaBus.new.vram.data.getD (0x80000004 - VRAM_BASE) 0) ∧
    NovaBus.store8 NovaBus.new 0x80000004 7 =
      (Except.ok (), { NovaBus.new with
        vram := ⟨NovaBus.new.vram.data.set (0x80000004 - VRAM_BASE) 7⟩ }) := by
  obtain ⟨l32, s32, vr, fr⟩ :=
    c10_word_ops_reject_vram_font NovaBus.new 0x80000004 7 (by decide) (by decide)
  obtain ⟨l32b, s32b, vrb, frb⟩ :=
    c10_word_ops_reject_vram_font NovaBus.new 0x80001001 0 (by decide) (by decide)
  have hlen : NovaBus.new.vram.data.length = 4096 := by
    show (List.replicate VRAM_SIZE 0).length = 4096
    rw [List.length_replicate]
    rfl
  obtain ⟨v1, v2⟩ := vr (by decide) (by rw [hlen]; decide)
  exact ⟨by rw [l32]; decide, by rw [l32b]; decide, v1, v2⟩

/-! ## C2: interrupt delivery -/

theorem sr_mask_testBit (s i : Nat) (hs : s < 4294967296) :
    (s &&& 0xFFFFFFEF).testBit i = (s.testBit i && decide (i ≠ 4)) := by
  rw [Nat.testBit_and]
  by_cases h32 : i < 32
  · have hm : Nat.testBit 0xFFFFFFEF i = decide (i ≠ 4) := by
      interval_cases i <;> decide
    rw [hm]
  · have h1 : s.testBit i = false := testBit_ge_false s 32 i (by omega) (by omega)
    have h2 : Nat.testBit 0xFFFFFFEF i = false :=
      testBit_ge_false _ 32 i (by omega) (by omega)
    simp [h1, h2]

/-- C2: for every non-halted CPU state whose fetch succeeds, if at
least one IRQ line of the snapshot is asserted then `step` takes the
interrupt regardless of `SR.IE`: it succeeds, commits `EPC = old PC`,
`CAUSE` selected in priority order Timer1 (0x100), Timer2 (0x101),
UART (0x102), `PC = 0x0000_0100`, `SR` equal to the old `SR` with only
the `IE` bit (bit 4) cleared, and does not execute the fetched
instruction (the register file is unchanged apart from the forced
`regs[0] = 0`, and `halted` stays false). -/
theorem c2_interrupt_entry {σ ε : Type} (B : BusOps σ ε) (cpu : Cpu)
    (bus bus1 : σ) (irq : IrqLines) (raw : Nat)
    (hhalt : cpu.halted = false) (hsr : cpu.sr < 4294967296)
    (hfetch : B.read32 bus cpu.pc = (Except.ok raw, bus1))
    (hirq : irq.timer1 = true ∨ irq.timer2 = true ∨ irq.uart = true) :
    (Cpu.step B cpu bus irq).res = none ∧
    (Cpu.step B cpu bus irq).cpu.epc = cpu.pc ∧
    (Cpu.step B cpu bus irq).cpu.cause =
      (if irq.timer1 then cause.TIMER1_IRQ
       else if irq.timer2 then cause.TIMER2_IRQ else cause.UART_IRQ) ∧
    (Cpu.step B cpu bus irq).cpu.pc = EXCEPTION_VECTOR ∧
    (∀ i : Nat, (Cpu.step B cpu bus irq).cpu.sr.testBit i =
      (cpu.sr.testBit i && decide (i ≠ 4))) ∧
    (Cpu.step B cpu bus irq).cpu.regs = cpu.regs.set 0 0 ∧
    (Cpu.step B cpu bus irq).cpu.halted = false ∧
    (Cpu.step B cpu bus irq).bus = bus1 := by
  have hc : (irq.timer1 || irq.timer2 || irq.uart) = true := by
    rcases hirq with h | h | h <;> simp [h]
  have hstep : Cpu.step B cpu bus irq = ⟨none, { cpu with
      regs := cpu.regs.set 0 0,
      pc := EXCEPTION_VECTOR,
      sr := cpu.sr &&& 0xFFFFFFEF,
      epc := cpu.pc,
      cause := if irq.timer1 then cause.TIMER1_IRQ
        else if irq.timer2 then cause.TIMER2_IRQ else cause.UART_IRQ }, bus1⟩ := by
    unfold Cpu.step
    rw [hhalt]
    simp only [Bool.false_eq_true, if_false]
    rw [hfetch]
    simp only [hc, if_true]
  rw [hstep]
  refine ⟨rfl, rfl, rfl, rfl, ?_, rfl, hhalt, rfl⟩
  intro i
  exact sr_mask_testBit cpu.sr i hsr

/-- C2 witness: with `SR = 0x13`, timer2 and uart asserted but timer1
clear, the interrupt is taken with cause 0x101, `EPC = 0`,
`PC = 0x100`, and bit 4 of the committed `SR` cleared while bit 0 is
kept. -/
theorem c2_witness :
    (Cpu.step (fixedBus 0) { Cpu.new with sr := 0x13 } () ⟨false, true, true⟩).res = none ∧
    (Cpu.step (fixedBus 0) { Cpu.new with sr := 0x13 } () ⟨false, true, true⟩).cpu.cause =
      (if (false : Bool) then cause.TIMER1_IRQ
       else if (true : Bool) then cause.TIMER2_IRQ else cause.UART_IRQ) ∧
    (Cpu.step (fixedBus 0) { Cpu.new with sr := 0x13 } () ⟨false, true, true⟩).cpu.pc =
      EXCEPTION_VECTOR ∧
    (Cpu.step (fixedBus 0) { Cpu.new with sr := 0x13 } () ⟨false, true, true⟩).cpu.sr.testBit 4 =
      ((0x13 : Nat).testBit 4 && decide ((4 : Nat) ≠ 4)) ∧
    (Cpu.step (fixedBus 0) { Cpu.new with sr := 0x13 } () ⟨false, true, true⟩).cpu.sr.testBit 0 =
      ((0x13 : Nat).testBit 0 && decide ((0 : Nat) ≠ 4)) := by
  obtain ⟨h1, h2, h3, h4, h5, h6, h7, h8⟩ :=
    c2_interrupt_entry (fixedBus 0) { Cpu.new with sr := 0x13 } () () ⟨false, true, true⟩ 0
      rfl (by decide) rfl (Or.inr (Or.inl rfl))
  exact ⟨h1, h3, h4, h5 4, h5 0⟩

/-! ## C3: bus-error propagation -/

/-- C3: whenever `cpu.step` returns an error the whole CPU state
(registers, PC, SR, EPC, CAUSE, halted) is unchanged; and each bus
operation a step can perform — the fetch, and the data access of
LW/SW/LB/SB — propagates its error as the result of `step`, again with
the CPU unchanged. -/
theorem c3_bus_error_propagation {σ ε : Type} (B : BusOps σ ε) (cpu : Cpu)
    (bus : σ) (irq : IrqLines) :
    (∀ e : ε, (Cpu.step B cpu bus irq).res = some e →
      (Cpu.step B cpu bus irq).cpu = cpu) ∧
    (∀ (e : ε) (bus1 : σ), cpu.halted = false →
      B.read32 bus cpu.pc = (Except.error e, bus1) →
      Cpu.step B cpu bus irq = ⟨some e, cpu, bus1⟩) ∧
    (∀ (raw : Nat) (e : ε) (bus1 bus2 : σ), cpu.halted = false → irq = noIrq →
      B.read32 bus cpu.pc = (Except.ok raw, bus1) →
      (Instruction.decode raw).opcode = opcode.LW →
      B.read32 bus1 (wadd (regGet cpu (Instruction.decode raw).rs)
        (sign_extend_16 (Instruction.decode raw).imm16)) = (Except.error e, bus2) →
      Cpu.step B cpu bus irq = ⟨some e, cpu, bus2⟩) ∧
    (∀ (raw : Nat) (e : ε) (bus1 bus2 : σ), cpu.halted = false → irq = noIrq →
      B.read32 bus cpu.pc = (Except.ok raw, bus1) →
      (Instruction.decode raw).opcode = opcode.SW →
      B.write32 bus1 (wadd (regGet cpu (Instruction.decode raw).rs)
        (sign_extend_16 (Instruction.decode raw).imm16))
        (regGet cpu (Instruction.decode raw).rd) = (Except.error e, bus2) →
      Cpu.step B cpu bus irq = ⟨some e, cpu, bus2⟩) ∧
    (∀ (raw : Nat) (e : ε) (bus1 bus2 : σ), cpu.halted = false → irq = noIrq →
      B.read32 bus cpu.pc = (Except.ok raw, bus1) →
      (Instruction.decode raw).opcode = opcode.LB →
      B.read8 bus1 (wadd (regGet cpu (Instruction.decode raw).rs)
        (sign_extend_16 (Instruction.decode raw).imm16)) = (Except.error e, bus2) →
      Cpu.step B cpu bus irq = ⟨some e, cpu, bus2⟩) ∧
    (∀ (raw : Nat) (e : ε) (bus1 bus2 : σ), cpu.halted = false → irq = noIrq →
      B.read32 bus cpu.pc = (Except.ok raw, bus1) →
      (Instruction.decode raw).opcode = opcode.SB →
      B.write8 bus1 (wadd (regGet cpu (Instruction.decode raw).rs)
        (sign_extend_16 (Instruction.decode raw).imm16))
        (regGet cpu (Instruction.decode raw).rd &&& 0xFF) = (Except.error e, bus2) →
      Cpu.step B cpu bus irq = ⟨some e, cpu, bus2⟩) := by
  refine ⟨?_, ?_, ?_, ?_, ?_, ?_⟩
  · intro e hsome
    rcases hE : Cpu.step B cpu bus irq with ⟨r, c, b2⟩
    rw [hE] at hsome
    dsimp only at hsome ⊢
    unfold Cpu.step at hE
    by_cases hh : cpu.halted = true
    · rw [if_pos hh] at hE
      cases hE
      simp at hsome
    · rw [if_neg hh] at hE
      split at hE
      · cases hE; rfl
      · split at hE
        · cases hE; simp at hsome
        · have h0 := exec_error_cpu_unchanged B cpu _ _ e (by rw [hE]; exact hsome)
          rw [hE] at h0
          exact h0
  · intro e bus1 hh hf
    unfold Cpu.step
    rw [hh]
    simp only [Bool.false_eq_true, if_false]
    rw [hf]
  · intro raw e bus1 bus2 hh hirq hf hop hbus
    subst hirq
    unfold Cpu.step
    rw [hh]
    simp only [Bool.false_eq_true, if_false]
    rw [hf]
    simp only [noIrq, Bool.or_self, Bool.false_eq_true, if_false]
    simp only [Cpu.exec, hop, opcode.LW, hbus]
  · intro raw e bus1 bus2 hh hirq hf hop hbus
    subst hirq
    unfold Cpu.step
    rw [hh]
    simp only [Bool.false_eq_true, if_false]
    rw [hf]
    simp only [noIrq, Bool.or_self, Bool.false_eq_true, if_false]
    simp only [Cpu.exec, hop, opcode.SW, hbus]
  · intro raw e bus1 bus2 hh hirq hf hop hbus
    subst hirq
    unfold Cpu.step
    rw [hh]
    simp only [Bool.false_eq_true, if_false]
    rw [hf]
    simp only [noIrq, Bool.or_self, Bool.false_eq_true, if_false]
    simp only [Cpu.exec, hop, opcode.LB, hbus]
  · intro raw e bus1 bus2 hh hirq hf hop hbus
    subst hirq
    unfold Cpu.step
    rw [hh]
    simp only [Bool.false_eq_true, if_false]
    rw [hf]
    simp only [noIrq, Bool.or_self, Bool.false_eq_true, if_false]
    simp only [Cpu.exec, hop, opcode.SB, hbus]

/-- C3 witness: on a bus that fails every operation with error 7, the
fetch fails, the step returns that error, and the CPU is returned
unchanged. -/
theorem c3_witness :
    Cpu.step (failBus 7) Cpu.new () noIrq = ⟨some 7, Cpu.new, ()⟩ ∧
    (Cpu.step (failBus 7) Cpu.new () noIrq).cpu = Cpu.new := by
  obtain ⟨h1, h2, h3, h4, h5, h6⟩ := c3_bus_error_propagation (failBus 7) Cpu.new () noIrq
  have hf := h2 7 () rfl rfl
  exact ⟨hf, h1 7 (by rw [hf])⟩

/-! ## C8: PC increment for straight-line instructions -/

/-- C8 counterexample: HALT (opcode 0x3F, fetched word `0xFC00_0000`)
is neither a jump nor a branch and raises no exception, yet a
successful step leaves the committed PC equal to the old PC instead of
old PC + 4. -/
theorem c8_cex :
    (Cpu.step (fixedBus 4227858432) Cpu.new () noIrq).res = none ∧
    (Instruction.decode 4227858432).opcode = opcode.HALT ∧
    ¬ ((Instruction.decode 4227858432).opcode ∈
      ([opcode.J, opcode.JAL, opcode.JR, opcode.JALR,
        opcode.BEQ, opcode.BNE, opcode.BLT, opcode.BGE] : List Nat)) ∧
    (Cpu.step (fixedBus 4227858432) Cpu.new () noIrq).cpu.epc = Cpu.new.epc ∧
    (Cpu.step (fixedBus 4227858432) Cpu.new () noIrq).cpu.cause = Cpu.new.cause ∧
    (Cpu.step (fixedBus 4227858432) Cpu.new () noIrq).cpu.pc = Cpu.new.pc ∧
    (Cpu.step (fixedBus 4227858432) Cpu.new () noIrq).cpu.pc ≠ wadd Cpu.new.pc 4 := by
  decide

/-- PC outcome of the execute phase for every non-jump, non-branch,
non-HALT legal opcode: on success the committed PC is the old PC
plus 4. -/
theorem exec_pc_plus4 {σ ε : Type} (B : BusOps σ ε) (cpu : Cpu) (bus : σ)
    (instr : Instruction)
    (hop : instr.opcode ∈ ([opcode.ADD, opcode.SUB, opcode.AND, opcode.OR,
      opcode.XOR, opcode.SLT, opcode.SLTU, opcode.SHL, opcode.SHR, opcode.SAR,
      opcode.ADDI, opcode.ANDI, opcode.ORI, opcode.XORI, opcode.SLTI,
      opcode.SLTIU, opcode.LUI, opcode.LW, opcode.SW, opcode.LB, opcode.SB,
      opcode.NOP] : List Nat))
    (hok : (Cpu.exec B cpu bus instr).res = none) :
    (Cpu.exec B cpu bus instr).cpu.pc = wadd cpu.pc 4 := by
  simp only [List.mem_cons, List.not_mem_nil, or_false,
    opcode.ADD, opcode.SUB, opcode.AND, opcode.OR, opcode.XOR, opcode.SLT,
    opcode.SLTU, opcode.SHL, opcode.SHR, opcode.SAR, opcode.ADDI, opcode.ANDI,
    opcode.ORI, opcode.XORI, opcode.SLTI, opcode.SLTIU, opcode.LUI, opcode.LW,
    opcode.SW, opcode.LB, opcode.SB, opcode.NOP] at hop
  rcases hop with h|h|h|h|h|h|h|h|h|h|h|h|h|h|h|h|h|h|h|h|h|h
  all_goals simp only [Cpu.exec, h] at hok ⊢
  all_goals split at hok <;> simp_all

/-- C8 (amended): for every instruction executed by `cpu.step` that is
not a jump (J/JAL/JR/JALR), not a branch (BEQ/BNE/BLT/BGE), **not
HALT**, and does not raise an exception (legal opcode, no pending IRQ,
successful bus accesses), the committed PC equals the old PC plus 4
(modulo 2^32). -/
theorem c8_pc_plus_four {σ ε : Type} (B : BusOps σ ε) (cpu : Cpu) (bus bus1 : σ)
    (raw : Nat) (hhalt : cpu.halted = false)
    (hfetch : B.read32 bus cpu.pc = (Except.ok raw, bus1))
    (hop : (Instruction.decode raw).opcode ∈ ([opcode.ADD, opcode.SUB,
      opcode.AND, opcode.OR, opcode.XOR, opcode.SLT, opcode.SLTU, opcode.SHL,
      opcode.SHR, opcode.SAR, opcode.ADDI, opcode.ANDI, opcode.ORI,
      opcode.XORI, opcode.SLTI, opcode.SLTIU, opcode.LUI, opcode.LW,
      opcode.SW, opcode.LB, opcode.SB, opcode.NOP] : List Nat))
    (hok : (Cpu.step B cpu bus noIrq).res = none) :
    (Cpu.step B cpu bus noIrq).cpu.pc = wadd cpu.pc 4 := by
  have hstep : Cpu.step B cpu bus noIrq =
      Cpu.exec B cpu bus1 (Instruction.decode raw) := by
    unfold Cpu.step
    rw [hhalt]
    simp only [Bool.false_eq_true, if_false]
    rw [hfetch]
    simp only [noIrq, Bool.or_self, Bool.false_eq_true, if_false]
  rw [hstep] at hok ⊢
  exact exec_pc_plus4 B cpu bus1 (Instruction.decode raw) hop hok

/-- C8 witness: stepping the reset CPU on a bus that always fetches the
word 0 (an ADD) succeeds and commits PC = 0 + 4. -/
theorem c8_witness :
    (Cpu.step (fixedBus 0) Cpu.new () noIrq).cpu.pc = wadd Cpu.new.pc 4 :=
  c8_pc_plus_four (fixedBus 0) Cpu.new () () 0 rfl rfl (by decide) rfl

/-! ## C5: branch encoding, decoding and execution -/

theorem ofInt16_lt (d : Int) : ofInt16 d < 65536 := by
  unfold ofInt16
  have h1 : 0 ≤ d % 65536 := Int.emod_nonneg d (by norm_num)
  have h2 : d % 65536 < 65536 := Int.emod_lt_of_pos d (by norm_num)
  omega

/-- Bit layout of the I-type encoder output: bits 15..0 hold the
immediate, 20..16 `rs`, 25..21 `rd`, 31..26 the opcode. -/
theorem testBit_enc (op rd rs imm i : Nat) (hop : op < 64) (hrd : rd < 32)
    (hrs : rs < 32) (him : imm < 65536) :
    ((op <<< 26) ||| (rd <<< 21) ||| (rs <<< 16) ||| imm).testBit i =
      (if i < 16 then imm.testBit i
       else if i < 21 then rs.testBit (i - 16)
       else if i < 26 then rd.testBit (i - 21)
       else op.testBit (i - 26)) := by
  simp only [Nat.testBit_lor, Nat.testBit_shiftLeft]
  by_cases h16 : i < 16
  · have e1 : decide (26 ≤ i) = false := by simp; omega
    have e2 : decide (21 ≤ i) = false := by simp; omega
    have e3 : decide (16 ≤ i) = false := by simp; omega
    simp [e1, e2, e3, h16]
  · by_cases h21 : i < 21
    · have e1 : decide (26 ≤ i) = false := by simp; omega
      have e2 : decide (21 ≤ i) = false := by simp; omega
      have e3 : decide (16 ≤ i) = true := by simp; omega
      have e4 : imm.testBit i = false := testBit_ge_false imm 16 i (by omega) (by omega)
      simp [e1, e2, e3, e4, h16, h21]
    · by_cases h26 : i < 26
      · have e1 : decide (26 ≤ i) = false := by simp; omega
        have e2 : decide (21 ≤ i) = true := by simp; omega
        have e3 : decide (16 ≤ i) = true := by simp; omega
        have e4 : imm.testBit i = false := testBit_ge_false imm 16 i (by omega) (by omega)
        have e5 : rs.testBit (i - 16) = false :=
          testBit_ge_false rs 5 (i - 16) (by omega) (by omega)
        simp [e1, e2, e3, e4, e5, h16, h21, h26]
      · have e1 : decide (26 ≤ i) = true := by simp; omega
        have e2 : decide (21 ≤ i) = true := by simp; omega
        have e3 : decide (16 ≤ i) = true := by simp; omega
        have e4 : imm.testBit i = false := testBit_ge_false imm 16 i (by omega) (by omega)
        have e5 : rs.testBit (i - 16) = false :=
          testBit_ge_false rs 5 (i - 16) (by omega) (by omega)
        have e6 : rd.testBit (i - 21) = false :=
          testBit_ge_false rd 5 (i - 21) (by omega) (by omega)
        simp [e1, e2, e3, e4, e5, e6, h16, h21, h26]

theorem decode_enc_opcode (op rd rs : Nat) (imm : Int) (hop : op < 64)
    (hrd : rd < 32) (hrs : rs < 32) :
    (Instruction.decode (enc_i op rd rs imm)).opcode = op := by
  have him : ofInt16 imm < 65536 := ofInt16_lt imm
  unfold Instruction.decode enc_i
  dsimp only
  apply Nat.eq_of_testBit_eq
  intro i
  rw [Nat.testBit_and, Nat.testBit_shiftRight,
    testBit_enc op rd rs (ofInt16 imm) (26 + i) hop hrd hrs him]
  rw [if_neg (by omega), if_neg (by omega), if_neg (by omega)]
  have e : 26 + i - 26 = i := by omega
  rw [e]
  by_cases h6 : i < 6
  · have hm : Nat.testBit 63 i = true := by interval_cases i <;> decide
    simp [hm]
  · have hm : Nat.testBit 63 i = false := testBit_ge_false 63 6 i (by omega) (by omega)
    have ho : op.testBit i = false := testBit_ge_false op 6 i (by omega) (by omega)
    simp [hm, ho]

theorem decode_enc_rd (op rd rs : Nat) (imm : Int) (hop : op < 64)
    (hrd : rd < 32) (hrs : rs < 32) :
    (Instruction.decode (enc_i op rd rs imm)).rd = rd := by
  have him : ofInt16 imm < 65536 := ofInt16_lt imm
  unfold Instruction.decode enc_i
  dsimp only
  apply Nat.eq_of_testBit_eq
  intro i
  rw [Nat.testBit_and, Nat.testBit_shiftRight,
    testBit_enc op rd rs (ofInt16 imm) (21 + i) hop hrd hrs him]
  rw [if_neg (by omega), if_neg (by omega)]
  by_cases h5 : i < 5
  · rw [if_pos (by omega)]
    have e : 21 + i - 21 = i := by omega
    rw [e]
    have hm : Nat.testBit 31 i = true := by interval_cases i <;> decide
    simp [hm]
  · rw [if_neg (by omega)]
    have hm : Nat.testBit 31 i = false := testBit_ge_false 31 5 i (by omega) (by omega)
    have hr : rd.testBit i = false := testBit_ge_false rd 5 i (by omega) (by omega)
    simp [hm, hr]

theorem decode_enc_rs (op rd rs : Nat) (imm : Int) (hop : op < 64)
    (hrd : rd < 32) (hrs : rs < 32) :
    (Instruction.decode (enc_i op rd rs imm)).rs = rs := by
  have him : ofInt16 imm < 65536 := ofInt16_lt imm
  unfold Instruction.decode enc_i
  dsimp only
  apply Nat.eq_of_testBit_eq
  intro i
  rw [Nat.testBit_and, Nat.testBit_shiftRight,
    testBit_enc op rd rs (ofInt16 imm) (16 + i) hop hrd hrs him]
  rw [if_neg (by omega)]
  by_cases h5 : i < 5
  · rw [if_pos (by omega)]
    have e : 16 + i - 16 = i := by omega
    rw [e]
    have hm : Nat.testBit 31 i = true := by interval_cases i <;> decide
    simp [hm]
  · have hm : Nat.testBit 31 i = false := testBit_ge_false 31 5 i (by omega) (by omega)
    have hr : rs.testBit i = false := testBit_ge_false rs 5 i (by omega) (by omega)
    simp [hm, hr]

theorem decode_enc_imm16 (op rd rs : Nat) (imm : Int) (hop : op < 64)
    (hrd : rd < 32) (hrs : rs < 32) :
    (Instruction.decode (enc_i op rd rs imm)).imm16 = ofInt16 imm := by
  have him : ofInt16 imm < 65536 := ofInt16_lt imm
  unfold Instruction.decode enc_i
  dsimp only
  apply Nat.eq_of_testBit_eq
  intro i
  rw [Nat.testBit_and,
    testBit_enc op rd rs (ofInt16 imm) i hop hrd hrs him]
  by_cases h16 : i < 16
  · rw [if_pos h16]
    have hm : Nat.testBit 65535 i = true := by interval_cases i <;> decide
    simp [hm]
  · rw [if_neg h16]
    have hm : Nat.testBit 65535 i = false :=
      testBit_ge_false 65535 16 i (by omega) (by omega)
    have hi : (ofInt16 imm).testBit i = false :=
      testBit_ge_false _ 16 i (by omega) (by omega)
    simp [hm, hi]

theorem branch_imm_exact (A T : Nat) (d : Int) (hA4 : A + 4 < 4294967296)
    (hT : T < 4294967296) (hd : (T : Int) = (A : Int) + 4 + 4 * d)
    (hlo : -32768 ≤ d) (hhi : d ≤ 32767) :
    branch_imm T A = Except.ok d := by
  have hw : toInt32 (wsub T (wadd A 4)) = 4 * d := by
    unfold toInt32 wsub wadd
    split <;> omega
  unfold branch_imm
  dsimp only
  rw [hw]
  rw [show Int.tdiv (4 * d) 4 = d from Int.mul_tdiv_cancel_left d (by norm_num)]
  rw [if_neg (by omega)]

theorem branch_target_pc (A T : Nat) (d : Int) (hA4 : A + 4 < 4294967296)
    (hT : T < 4294967296) (hd : (T : Int) = (A : Int) + 4 + 4 * d)
    (hlo : -32768 ≤ d) (hhi : d ≤ 32767) :
    wadd (wadd A 4) (wrap32 (sign_extend_16 (ofInt16 d) <<< 2)) = T := by
  unfold wadd wrap32 sign_extend_16 ofInt16
  rw [Nat.shiftLeft_eq]
  split <;> omega

/-- The four branch arms of the execute phase, for any instruction
whose opcode is the given branch kind's. -/
theorem exec_branch {σ ε : Type} (B : BusOps σ ε) (cpu : Cpu) (bus : σ)
    (instr : Instruction) (k : BranchKind) (h : instr.opcode = k.opc) :
    Cpu.exec B cpu bus instr = ⟨none, { cpu with
      regs := cpu.regs.set 0 0,
      pc := match k with
        | BranchKind.beq =>
          if regGet cpu instr.rd = regGet cpu instr.rs
          then wadd (wadd cpu.pc 4) (wrap32 (sign_extend_16 instr.imm16 <<< 2))
          else wadd cpu.pc 4
        | BranchKind.bne =>
          if regGet cpu instr.rd ≠ regGet cpu instr.rs
          then wadd (wadd cpu.pc 4) (wrap32 (sign_extend_16 instr.imm16 <<< 2))
          else wadd cpu.pc 4
        | BranchKind.blt =>
          if toInt32 (regGet cpu instr.rd) < toInt32 (regGet cpu instr.rs)
          then wadd (wadd cpu.pc 4) (wrap32 (sign_extend_16 instr.imm16 <<< 2))
          else wadd cpu.pc 4
        | BranchKind.bge =>
          if toInt32 (regGet cpu instr.rs) ≤ toInt32 (regGet cpu instr.rd)
          then wadd (wadd cpu.pc 4) (wrap32 (sign_extend_16 instr.imm16 <<< 2))
          else wadd cpu.pc 4 }, bus⟩ := by
  rcases instr with ⟨op, ird, irs, irt, imm, tgt⟩
  dsimp only at h
  subst h
  cases k <;> rfl

/-- C5: for every branch (BEQ/BNE/BLT/BGE) assembled at address `A`
targeting address `T` with displacement `d = (T - (A + 4)) / 4` fitting
a signed 16-bit value, the assembler emits the word `enc_i opc a b d`
placing the first written operand `a` in the `rd` field (bits 25..21)
and the second `b` in the `rs` field (bits 20..16); decoding that word
recovers the opcode, both operand fields and `imm16 = d` (as a `u16`
bit pattern); and a CPU executing the word at `PC = A` branches to `T`
exactly when the branch condition holds on
(first operand register, second operand register), else to `A + 4`. -/
theorem c5_branch_roundtrip {σ ε : Type} (B : BusOps σ ε) (k : BranchKind)
    (a b A T : Nat) (d : Int) (cpu : Cpu) (bus bus1 : σ)
    (ha : a < 32) (hb : b < 32)
    (hA4 : A + 4 < 4294967296) (hT : T < 4294967296)
    (hd : (T : Int) = (A : Int) + 4 + 4 * d)
    (hlo : -32768 ≤ d) (hhi : d ≤ 32767)
    (hpc : cpu.pc = A) (hhalt : cpu.halted = false)
    (hfetch : B.read32 bus A = (Except.ok (enc_i k.opc a b d), bus1)) :
    encode_branch k a b T A = Except.ok (enc_i k.opc a b d) ∧
    (Instruction.decode (enc_i k.opc a b d)).opcode = k.opc ∧
    (Instruction.decode (enc_i k.opc a b d)).rd = a ∧
    (Instruction.decode (enc_i k.opc a b d)).rs = b ∧
    (Instruction.decode (enc_i k.opc a b d)).imm16 = ofInt16 d ∧
    (Cpu.step B cpu bus noIrq).res = none ∧
    (Cpu.step B cpu bus noIrq).cpu.pc =
      (match k with
       | BranchKind.beq => if regGet cpu a = regGet cpu b then T else A + 4
       | BranchKind.bne => if regGet cpu a ≠ regGet cpu b then T else A + 4
       | BranchKind.blt =>
         if toInt32 (regGet cpu a) < toInt32 (regGet cpu b) then T else A + 4
       | BranchKind.bge =>
         if toInt32 (regGet cpu b) ≤ toInt32 (regGet cpu a) then T else A + 4) := by
  have hoplt : k.opc < 64 := by cases k <;> decide
  have hdec_op := decode_enc_opcode k.opc a b d hoplt ha hb
  have hdec_rd := decode_enc_rd k.opc a b d hoplt ha hb
  have hdec_rs := decode_enc_rs k.opc a b d hoplt ha hb
  have hdec_imm := decode_enc_imm16 k.opc a b d hoplt ha hb
  have henc : encode_branch k a b T A = Except.ok (enc_i k.opc a b d) := by
    unfold encode_branch
    rw [branch_imm_exact A T d hA4 hT hd hlo hhi]
  have htgt := branch_target_pc A T d hA4 hT hd hlo hhi
  have hnt : wadd A 4 = A + 4 := by unfold wadd; omega
  have hstep : Cpu.step B cpu bus noIrq =
      Cpu.exec B cpu bus1 (Instruction.decode (enc_i k.opc a b d)) := by
    unfold Cpu.step
    rw [hhalt]
    simp only [Bool.false_eq_true, if_false]
    rw [hpc, hfetch]
    simp only [noIrq, Bool.or_self, Bool.false_eq_true, if_false]
  refine ⟨henc, hdec_op, hdec_rd, hdec_rs, hdec_imm, ?_, ?_⟩
  · rw [hstep, exec_branch B cpu bus1 _ k hdec_op]
  · rw [hstep, exec_branch B cpu bus1 _ k hdec_op]
    dsimp only
    rw [hdec_rd, hdec_rs, hdec_imm, hpc]
    cases k <;> dsimp only <;> split_ifs <;> first | exact htgt | exact hnt

/-- C5 witness: `BEQ r1, r2, label` assembled at 0 with the label at 8
(displacement 1) is emitted with operands in the `rd`/`rs` slots, and a
CPU with `r1 = r2 = 5` executing it at `PC = 0` branches to 8. -/
theorem c5_witness :
    encode_branch BranchKind.beq 1 2 8 0 = Except.ok (enc_i BranchKind.beq.opc 1 2 1) ∧
    (Instruction.decode (enc_i BranchKind.beq.opc 1 2 1)).rd = 1 ∧
    (Instruction.decode (enc_i BranchKind.beq.opc 1 2 1)).rs = 2 ∧
    (Instruction.decode (enc_i BranchKind.beq.opc 1 2 1)).imm16 = ofInt16 1 ∧
    (Cpu.step (fixedBus (enc_i BranchKind.beq.opc 1 2 1))
      { Cpu.new with regs := ((List.replicate 32 0).set 1 5).set 2 5 } () noIrq).cpu.pc =
      (if regGet { Cpu.new with regs := ((List.replicate 32 0).set 1 5).set 2 5 } 1 =
          regGet { Cpu.new with regs := ((List.replicate 32 0).set 1 5).set 2 5 } 2
       then 8 else 0 + 4) := by
  obtain ⟨h1, h2, h3, h4, h5, h6, h7⟩ :=
    c5_branch_roundtrip (fixedBus (enc_i BranchKind.beq.opc 1 2 1)) BranchKind.beq 1 2 0 8 1
      { Cpu.new with regs := ((List.replicate 32 0).set 1 5).set 2 5 } () ()
      (by decide) (by decide) (by decide) (by decide) (by decide) (by decide) (by decide)
      rfl rfl rfl
  exact ⟨h1, h3, h4, h5, h7⟩

/-! ## C7: NV32 round trip -/

/-- C7 counterexample: a kind-0 segment whose header advertises one
word but whose payload list is empty. The writer emits the header with
`length_words = 1` and no payload bytes, so the loader hits end of
input while reading the advertised payload and fails — nothing is
recovered, contradicting the claim for arbitrary segment lists. -/
theorem c7_cex :
    load_nv32 (write_nv32 [⟨SegmentKind.CodeData, 0, 1, []⟩]) =
      Except.error LoadError.Eof := by
  decide

theorem flatMap_u32le_length (ws : List Nat) :
    (ws.flatMap u32le).length = 4 * ws.length := by
  induction ws with
  | nil => simp
  | cons w ws ih =>
    simp only [List.flatMap_cons, List.length_append, List.length_cons, ih, u32le]
    simp
    omega

theorem u32from_u32le (n : Nat) (r : List Nat) (h : n < 4294967296) :
    u32from (u32le n ++ r) = n := by
  simp only [u32le, u32from, List.cons_append, List.nil_append,
    List.getD_cons_zero, List.getD_cons_succ]
  omega

theorem payload_read (ws : List Nat) (hws : ∀ w ∈ ws, w < 4294967296) :
    ∀ (i : Nat) (r : List Nat), i < ws.length →
      u32from (((ws.flatMap u32le) ++ r).drop (4 * i)) = ws.getD i 0 := by
  induction ws with
  | nil => intro i r h; simp at h
  | cons w ws ih =>
    intro i r h
    cases i with
    | zero =>
      simp only [List.flatMap_cons, Nat.mul_zero, List.drop_zero,
        List.append_assoc, List.getD_cons_zero]
      exact u32from_u32le w _ (hws w (by simp))
    | succ i =>
      have e : 4 * (i + 1) = (u32le w).length + 4 * i := by
        simp [u32le]
        omega
      rw [List.flatMap_cons, List.append_assoc, e, List.drop_append]
      simp only [List.getD_cons_succ]
      exact ih (fun x hx => hws x (by simp [hx])) i r (by simpa using h)

theorem drop_payload (ws r : List Nat) :
    (((ws.flatMap u32le) ++ r)).drop (4 * ws.length) = r := by
  have h : 4 * ws.length = (ws.flatMap u32le).length + 0 := by
    rw [flatMap_u32le_length]
    omega
  rw [h, List.drop_append, List.drop_zero]

/-- Parsing one well-formed segment from the front of the stream: the
loader consumes exactly the bytes the writer emitted for it, recovers
its header fields, performs the claimed writes, and continues. -/
theorem loadSegs_cons (seg : NvSegment) (rest : List Nat) (n : Nat)
    (hwf : wfSeg seg) :
    loadSegs (n + 1) (segBytes seg ++ rest) =
      (match loadSegs n rest with
       | Except.error e => Except.error e
       | Except.ok tl => Except.ok (expectedLoad seg :: tl)) := by
  obtain ⟨hb, hl, h4, hnw, hws, hlen⟩ := hwf
  rcases seg with ⟨kind, base, len, words⟩
  dsimp only at hb hl h4 hnw hws hlen ⊢
  cases kind
  case Bss =>
    have hflat : segBytes ⟨SegmentKind.Bss, base, len, words⟩ ++ rest
        = 1 :: 0 :: 0 :: 0 :: (base % 256) :: (base / 256 % 256) :: (base / 65536 % 256)
          :: (base / 16777216 % 256) :: (len % 256) :: (len / 256 % 256)
          :: (len / 65536 % 256) :: (len / 16777216 % 256) :: 0 :: 0 :: 0 :: 0 :: rest := by
      simp [segBytes, u16le, u32le, segKindByte]
    rw [hflat]
    simp only [loadSegs]
    rw [if_neg (by simp)]
    simp only [List.getD_cons_zero, List.getD_cons_succ, List.drop_succ_cons,
      List.drop_zero, u32from]
    rw [if_neg (by norm_num), if_pos (by norm_num)]
    have hbase : base % 256 % 256 + 256 * (base / 256 % 256 % 256)
        + 65536 * (base / 65536 % 256 % 256) + 16777216 * (base / 16777216 % 256 % 256)
        = base := by omega
    have hsize : len % 256 % 256 + 256 * (len / 256 % 256 % 256)
        + 65536 * (len / 65536 % 256 % 256) + 16777216 * (len / 16777216 % 256 % 256)
        = len := by omega
    rw [hbase, hsize]
    unfold expectedLoad
    dsimp only
    have hwr : (List.range len).map (fun i => (wrap32 (base + 4 * i), 0))
        = (List.range len).map (fun i => (base + 4 * i, (0 : Nat))) := by
      apply List.map_congr_left
      intro i hi
      rw [List.mem_range] at hi
      have : wrap32 (base + 4 * i) = base + 4 * i := by
        unfold wrap32
        omega
      rw [this]
    rw [hwr]
    rfl
  case CodeData =>
    have hflat : segBytes ⟨SegmentKind.CodeData, base, len, words⟩ ++ rest
        = 0 :: 0 :: 0 :: 0 :: (base % 256) :: (base / 256 % 256) :: (base / 65536 % 256)
          :: (base / 16777216 % 256) :: (len % 256) :: (len / 256 % 256)
          :: (len / 65536 % 256) :: (len / 16777216 % 256) :: 0 :: 0 :: 0 :: 0
          :: ((words.flatMap u32le) ++ rest) := by
      simp [segBytes, u16le, u32le, segKindByte]
    have hplen : (words.flatMap u32le).length = 4 * len := by
      rw [flatMap_u32le_length, hlen rfl]
    rw [hflat]
    simp only [loadSegs]
    rw [if_neg (by simp)]
    simp only [List.getD_cons_zero, List.getD_cons_succ, List.drop_succ_cons,
      List.drop_zero]
    rw [if_pos (by norm_num)]
    have hbase : u32from ((base % 256) :: (base / 256 % 256) :: (base / 65536 % 256)
        :: (base / 16777216 % 256) :: (len % 256) :: (len / 256 % 256)
        :: (len / 65536 % 256) :: (len / 16777216 % 256) :: 0 :: 0 :: 0 :: 0
        :: ((words.flatMap u32le) ++ rest)) = base := by
      simp only [u32from, List.getD_cons_zero, List.getD_cons_succ]
      omega
    have hsize : u32from ((len % 256) :: (len / 256 % 256)
        :: (len / 65536 % 256) :: (len / 16777216 % 256) :: 0 :: 0 :: 0 :: 0
        :: ((words.flatMap u32le) ++ rest)) = len := by
      simp only [u32from, List.getD_cons_zero, List.getD_cons_succ]
      omega
    rw [hbase, hsize]
    have hw4 : wrap32 (len * 4) = len * 4 := by unfold wrap32; omega
    have hdiv : len * 4 / 4 = len := by omega
    rw [hw4, hdiv]
    rw [if_neg (by rw [List.length_append, hplen]; omega)]
    rw [show ((words.flatMap u32le) ++ rest).drop (len * 4) = rest by
      rw [show len * 4 = 4 * words.length by rw [hlen rfl]; omega]
      exact drop_payload words rest]
    unfold expectedLoad
    dsimp only
    have hwr : (List.range len).map
        (fun i => (wrap32 (base + 4 * i), u32from (((words.flatMap u32le) ++ rest).drop (4 * i))))
        = (List.range len).map (fun i => (base + 4 * i, words.getD i 0)) := by
      apply List.map_congr_left
      intro i hi
      rw [List.mem_range] at hi
      have h1 : wrap32 (base + 4 * i) = base + 4 * i := by
        unfold wrap32
        omega
      have h2 : u32from (((words.flatMap u32le) ++ rest).drop (4 * i)) = words.getD i 0 :=
        payload_read words hws i rest (by rw [hlen rfl]; omega)
      rw [h1, h2]
    rw [hwr]
    rfl

theorem loadSegs_write (segs : List NvSegment) (hwf : ∀ s ∈ segs, wfSeg s) :
    loadSegs segs.length (segs.flatMap segBytes) = Except.ok (segs.map expectedLoad) := by
  induction segs with
  | nil => rfl
  | cons seg segs ih =>
    rw [List.flatMap_cons, List.length_cons, loadSegs_cons seg _ _ (hwf seg (by simp)),
      ih (fun s hs => hwf s (by simp [hs]))]
    rfl

/-- C7 (amended): for every list of well-formed segments (header fields
and payload words are `u32` values, each kind-0 segment carries exactly
`length_words` payload words, write addresses do not wrap, and the
segment count fits `u16`), writing with the NV32 writer and re-reading
with the NV32 loader recovers, per segment in order, the same kind,
`base_addr` and `length_words`, with kind-0 payload words written at
`base_addr + 4·i` and kind-1 segments zero-filled. -/
theorem c7_nv32_roundtrip (segs : List NvSegment)
    (hcount : segs.length < 65536) (hwf : ∀ s ∈ segs, wfSeg s) :
    load_nv32 (write_nv32 segs) = Except.ok (segs.map expectedLoad) := by
  have hflat : write_nv32 segs = 78 :: 86 :: 51 :: 50 :: 1 :: 0 :: (segs.length % 256)
      :: (segs.length / 256 % 256) :: 0 :: 0 :: 0 :: 0 :: segs.flatMap segBytes := by
    simp [write_nv32, u16le, u32le]
  rw [hflat]
  unfold load_nv32
  rw [if_neg (by simp)]
  rw [if_neg (by simp)]
  rw [if_neg (by simp)]
  simp only [List.getD_cons_zero, List.getD_cons_succ, List.drop_succ_cons,
    List.drop_zero]
  rw [show segs.length % 256 % 256 + 256 * (segs.length / 256 % 256 % 256)
    = segs.length by omega]
  exact loadSegs_write segs hwf

/-- C7 witness: a two-segment program (one code segment of two words,
one three-word BSS segment) survives the write/load round trip. -/
theorem c7_witness :
    load_nv32 (write_nv32 [⟨SegmentKind.CodeData, 0, 2, [287454020, 1432778632]⟩,
      ⟨SegmentKind.Bss, 256, 3, []⟩]) =
      Except.ok ([⟨SegmentKind.CodeData, 0, 2, [287454020, 1432778632]⟩,
        ⟨SegmentKind.Bss, 256, 3, []⟩].map expectedLoad) :=
  c7_nv32_roundtrip _ (by decide)
    (by intro s hs; fin_cases hs <;> exact ⟨by decide, by decide, by decide, by decide, by decide⟩)
